import Mathlib

/-!
Verification of the OpenMetrics text-format parser (`src/openmetrics/parsers.rs`)
against its natural-language specification.

The development is a shallow embedding: the Rust data types and functions of
`parsers.rs` are translated into executable Lean definitions (state-passing
instead of `&mut`, `Except` instead of `Result`).  IEEE-754 doubles are modelled
by `F64` below: a finite value is carried as an exact rational, and the special
values `inf`, `neginf`, `nan` are explicit constructors.  Every comparison the
parser performs (`<`, `>=`, `==`, `is_nan`, `abs`) is exact on this model; binary
rounding of decimal literals and overflow to infinity are not modelled (none of
the properties below depend on them).

Parts of the repository that `parsers.rs` uses but that are not in the given
source tree (the `internal` and `public` modules and the pest grammar
`openmetrics.pest`) are modelled from the specification; each such definition
carries a doc comment starting with `Modelled from the spec:`.

Error messages: the Rust code builds messages with `format!`.  String-typed
interpolations (label names, metric names) are reproduced verbatim; numeric or
`Debug` interpolations are dropped from the message text, which no property
below depends on.
-/

namespace OpenMetrics

/-- Decidable equality for `Except` (used to evaluate parse results on
concrete inputs). -/
instance instDecEqExcept {ε α : Type} [DecidableEq ε] [DecidableEq α] :
    DecidableEq (Except ε α)
  | .error a, .error b =>
    if h : a = b then .isTrue (congrArg Except.error h)
    else .isFalse (fun hh => h (Except.error.inj hh))
  | .error _, .ok _ => .isFalse (fun hh => Except.noConfusion hh)
  | .ok _, .error _ => .isFalse (fun hh => Except.noConfusion hh)
  | .ok a, .ok b =>
    if h : a = b then .isTrue (congrArg Except.ok h)
    else .isFalse (fun hh => h (Except.ok.inj hh))

/-- `str::ends_with` (over the character list, so that concrete instances
evaluate inside the kernel). -/
def strEndsWith (s suffix : String) : Bool := suffix.data.isSuffixOf s.data

/-- Drop the last `n` characters (`&s[..s.len()-n]`). -/
def strDropRight (s : String) (n : ℕ) : String :=
  String.mk (s.data.take (s.data.length - n))

/-- Model of an IEEE-754 double (`f64`): finite values are exact rationals,
infinities and NaN are explicit.  Binary rounding is not modelled. -/
inductive F64 where
  | finite (q : ℚ)
  | inf
  | neginf
  | nan
deriving DecidableEq

namespace F64

/-- IEEE `is_nan`. -/
def isNan : F64 → Bool
  | .nan => true
  | _ => false

/-- IEEE `<`: every comparison involving NaN is false. -/
def flt : F64 → F64 → Bool
  | .nan, _ => false
  | _, .nan => false
  | .neginf, .neginf => false
  | .neginf, _ => true
  | .inf, _ => false
  | .finite _, .neginf => false
  | .finite _, .inf => true
  | .finite a, .finite b => decide (a < b)

/-- IEEE `<=`: false if either side is NaN, otherwise the negation of `>`. -/
def fle (a b : F64) : Bool := !a.isNan && !b.isNan && !(flt b a)

/-- IEEE `>`. -/
def fgt (a b : F64) : Bool := flt b a

/-- IEEE `>=`. -/
def fge (a b : F64) : Bool := fle b a

/-- IEEE `==`: false if either side is NaN, otherwise structural equality.
(`-0.0 == 0.0` holds in IEEE; the model carries a single zero.) -/
def feq (a b : F64) : Bool := !a.isNan && !b.isNan && decide (a = b)

/-- Exact rational subtraction, expressed through `mkRat` so that concrete
instances evaluate inside the kernel. -/
def qsub (a b : ℚ) : ℚ := mkRat (a.num * b.den - b.num * a.den) (a.den * b.den)

/-- IEEE subtraction restricted to the cases the parser exercises
(overflow to infinity is not modelled). -/
def fsub : F64 → F64 → F64
  | .nan, _ => .nan
  | _, .nan => .nan
  | .inf, .inf => .nan
  | .inf, _ => .inf
  | .neginf, .neginf => .nan
  | .neginf, _ => .neginf
  | .finite _, .inf => .neginf
  | .finite _, .neginf => .inf
  | .finite a, .finite b => .finite (qsub a b)

/-- IEEE absolute value. -/
def fabs : F64 → F64
  | .finite q => .finite (if q < 0 then -q else q)
  | .nan => .nan
  | _ => .inf

/-- `f64::EPSILON = 2^-52`. -/
def epsilon : F64 := .finite (mkRat 1 4503599627370496)

end F64

/-- Modelled from the spec: `MetricNumber` (a tagged numeric, integer or
floating point) lives in the `public` module, absent from src/.  Spec §3:
"either integer or floating-point.  Carries originating representation ...
Supports `as_f64` and `as_i64` (the latter returning 'absent' if the value is
non-integral)." -/
inductive MetricNumber where
  | int (z : ℤ)
  | float (f : F64)
deriving DecidableEq

namespace MetricNumber

/-- `MetricNumber::as_f64`.  (Exact; `i64 → f64` rounding above `2^53` is not
modelled, no property below exercises it.) -/
def as_f64 : MetricNumber → F64
  | .int z => .finite z
  | .float f => f

/-- `MetricNumber::as_i64`: absent if the value is non-integral. -/
def as_i64 : MetricNumber → Option ℤ
  | .int z => some z
  | .float (.finite q) => if q.den = 1 then some q.num else none
  | .float _ => none

end MetricNumber

/-- `ParseError` from the `public` module (variants as used by `parsers.rs`). -/
inductive ParseErr where
  | parseError (msg : String)
  | invalidMetric (msg : String)
  | duplicateMetric
deriving DecidableEq

/-- `OpenMetricsType`. -/
inductive OpenMetricsType where
  | counter
  | gauge
  | histogram
  | gaugehistogram
  | stateset
  | summary
  | info
  | unknown
deriving DecidableEq

/-- Exemplar: `(labels, value, optional timestamp)`; label lists are carried
already parsed (their internal parsing is not relevant to any property below). -/
structure Exemplar where
  labels : List (String × String)
  id : F64
  timestamp : Option F64
deriving DecidableEq

/-- `HistogramBucket`. -/
structure HistogramBucket where
  count : MetricNumber
  upper_bound : F64
  exemplar : Option Exemplar
deriving DecidableEq

/-- `HistogramValue` (Rust `u64` count modelled as `ℕ`). -/
structure HistogramValue where
  buckets : List HistogramBucket
  sum : Option MetricNumber
  count : Option ℕ
  created : Option F64
deriving DecidableEq

/-- `Quantile`. -/
structure Quantile where
  quantile : F64
  value : MetricNumber
deriving DecidableEq

/-- `SummaryValue`. -/
structure SummaryValue where
  quantiles : List Quantile
  sum : Option MetricNumber
  count : Option ℕ
  created : Option F64
deriving DecidableEq

/-- `CounterValueMarshal`. -/
structure CounterValueMarshal where
  value : Option MetricNumber
  created : Option F64
deriving DecidableEq

/-- `MetricValueMarshal` (the partially-assembled value of one sample). -/
inductive MetricValueMarshal where
  | unknown (v : Option MetricNumber)
  | untyped (v : Option MetricNumber)
  | gauge (v : Option MetricNumber)
  | counter (c : CounterValueMarshal)
  | histogram (h : HistogramValue)
  | stateset (v : Option MetricNumber)
  | gaugehistogram (h : HistogramValue)
  | info
  | summary (s : SummaryValue)
deriving DecidableEq

namespace OpenMetricsType

/-- `MetricsType::can_have_exemplar` for `OpenMetricsType` (src lines 39-47). -/
def can_have_exemplar (t : OpenMetricsType) (metric_name : String) : Bool :=
  match t with
  | .counter => strEndsWith metric_name "_total"
  | .histogram | .gaugehistogram => strEndsWith metric_name "_bucket"
  | _ => false

/-- `MetricsType::get_type_value` (src lines 60-73). -/
def get_type_value : OpenMetricsType → MetricValueMarshal
  | .histogram => .histogram ⟨[], none, none, none⟩
  | .gaugehistogram => .gaugehistogram ⟨[], none, none, none⟩
  | .counter => .counter ⟨none, none⟩
  | .unknown => .unknown none
  | .gauge => .gauge none
  | .stateset => .stateset none
  | .summary => .summary ⟨[], none, none, none⟩
  | .info => .info

/-- `MetricsType::can_have_units` (src lines 75-80). -/
def can_have_units : OpenMetricsType → Bool
  | .counter | .unknown | .gauge => true
  | _ => false

/-- `MetricsType::can_have_multiple_lines` (src lines 82-90). -/
def can_have_multiple_lines : OpenMetricsType → Bool
  | .counter | .gaugehistogram | .histogram | .summary => true
  | _ => false

/-- `TryFrom<&str> for OpenMetricsType` (src lines 93-112). -/
def tryFromStr (value : String) : Except ParseErr OpenMetricsType :=
  match value with
  | "counter" => .ok .counter
  | "gauge" => .ok .gauge
  | "histogram" => .ok .histogram
  | "gaugehistogram" => .ok .gaugehistogram
  | "stateset" => .ok .stateset
  | "summary" => .ok .summary
  | "info" => .ok .info
  | "unknown" => .ok .unknown
  | _ => .error (.invalidMetric ("Invalid metric type: " ++ value))

end OpenMetricsType

/-- `Default for OpenMetricsType` (src lines 131-135). -/
def OpenMetricsType.defaultType : OpenMetricsType := .unknown

/-- `MetricMarshal`: one partially-assembled sample. -/
structure MetricMarshal where
  label_values : List String
  timestamp : Option F64
  value : MetricValueMarshal
deriving DecidableEq

/-- `MetricFamilyMarshal<OpenMetricsType>`: the family builder.  Field list as
used by `parsers.rs` (the struct declaration itself is in the `internal`
module; `LabelNames` is modelled as its list of names). -/
structure MetricFamilyMarshal where
  name : Option String
  label_names : Option (List String)
  family_type : Option OpenMetricsType
  help : Option String
  unit : Option String
  metrics : List MetricMarshal
  current_label_set : Option (List String)
  seen_label_sets : List (List String)
deriving DecidableEq

/-- `MetricFamilyMarshal::empty`. -/
def MetricFamilyMarshal.empty : MetricFamilyMarshal :=
  ⟨none, none, none, none, none, [], none, []⟩

/-! ### Model of Rust standard-library number parsing

`parsers.rs` calls `str::parse::<i64>` and `str::parse::<f64>` (sample values,
timestamps, histogram bucket bounds, summary quantile bounds).  These are
modelled exactly on decimal literals (no binary rounding). -/

/-- Decimal digits of a character list, most significant first. -/
def digitsToNat (l : List Char) : ℕ :=
  l.foldl (fun a c => a * 10 + (c.toNat - 48)) 0

/-- Model of `str::parse::<i64>`: optional sign, nonempty digit run, i64 range. -/
def parseI64 (s : String) : Option ℤ :=
  let cs := s.data
  let signed : ℤ × List Char :=
    match cs with
    | '+' :: rest => (1, rest)
    | '-' :: rest => (-1, rest)
    | _ => (1, cs)
  if signed.2 ≠ [] ∧ signed.2.all Char.isDigit then
    let v : ℤ := signed.1 * digitsToNat signed.2
    if -(2 ^ 63) ≤ v ∧ v ≤ 2 ^ 63 - 1 then some v else none
  else
    none

/-- Exponent part of a float literal: empty, or `e`/`E`, optional sign,
nonempty digit run.  Returns the signed exponent. -/
def parseExpPart (cs : List Char) : Option ℤ :=
  match cs with
  | [] => some 0
  | e :: rest =>
    if e = 'e' ∨ e = 'E' then
      let signed : ℤ × List Char :=
        match rest with
        | '+' :: r => (1, r)
        | '-' :: r => (-1, r)
        | _ => (1, rest)
      if signed.2 ≠ [] ∧ signed.2.all Char.isDigit then
        some (signed.1 * digitsToNat signed.2)
      else none
    else none

/-- Model of `str::parse::<f64>`: optional sign, then `inf`/`infinity`/`nan`
(case-insensitive) or a decimal significand with optional fraction and
exponent.  Finite results are exact rationals. -/
def parseF64 (s : String) : Option F64 :=
  let cs := s.data
  let sign_rest : Bool × List Char :=
    match cs with
    | '+' :: rest => (false, rest)
    | '-' :: rest => (true, rest)
    | _ => (false, cs)
  let neg := sign_rest.1
  let body := sign_rest.2
  let lower := body.map Char.toLower
  if lower = "inf".data ∨ lower = "infinity".data then
    some (if neg then .neginf else .inf)
  else if lower = "nan".data then
    some .nan
  else
    let intd := body.takeWhile Char.isDigit
    let rest := body.drop intd.length
    let frac_rest : List Char × List Char :=
      match rest with
      | '.' :: r => (r.takeWhile Char.isDigit, r.drop (r.takeWhile Char.isDigit).length)
      | _ => ([], rest)
    let fracd := frac_rest.1
    if intd = [] ∧ fracd = [] then none
    else
      match parseExpPart frac_rest.2 with
      | none => none
      | some e =>
        let num : ℤ := digitsToNat intd * 10 ^ fracd.length + digitsToNat fracd
        let den : ℕ := 10 ^ fracd.length
        let mag : ℚ :=
          if 0 ≤ e then mkRat (num * 10 ^ e.toNat) den
          else mkRat num (den * 10 ^ (-e).toNat)
        some (.finite (if neg then -mag else mag))

/-- Sample-value parsing (src lines 1158-1170): integer first, float second. -/
def parseMetricNumberStr (s : String) : Option MetricNumber :=
  match parseI64 s with
  | some z => some (.int z)
  | none => (parseF64 s).map .float

/-! ### Spec-modelled pieces of the `internal` module

The builder methods below are declared in the repository's `internal` module,
which is not under src/; they are modelled from the specification. -/

/-- Modelled from the spec: `MetricFamilyMarshal::set_or_test_name` (internal
module, absent from src/).  §4.4: `HELP`/`TYPE` bind the family name or must
match the already-bound name. -/
def MetricFamilyMarshal.set_or_test_name (fm : MetricFamilyMarshal) (name : String) :
    Except ParseErr MetricFamilyMarshal :=
  match fm.name with
  | none => .ok { fm with name := some name }
  | some n => if n ≠ name then .error (.invalidMetric "Name mismatch in descriptor") else .ok fm

/-- Modelled from the spec: `MetricFamilyMarshal::try_add_help` (internal
module, absent from src/).  Stores the help text; a second `HELP` is an error. -/
def MetricFamilyMarshal.try_add_help (fm : MetricFamilyMarshal) (h : String) :
    Except ParseErr MetricFamilyMarshal :=
  match fm.help with
  | some _ => .error (.invalidMetric "Family already has a HELP")
  | none => .ok { fm with help := some h }

/-- Modelled from the spec: `MetricFamilyMarshal::try_add_type` (internal
module, absent from src/).  Stores the type; a second `TYPE` is an error. -/
def MetricFamilyMarshal.try_add_type (fm : MetricFamilyMarshal) (t : OpenMetricsType) :
    Except ParseErr MetricFamilyMarshal :=
  match fm.family_type with
  | some _ => .error (.invalidMetric "Family already has a TYPE")
  | none => .ok { fm with family_type := some t }

/-- Modelled from the spec: `MetricFamilyMarshal::try_add_unit` (internal
module, absent from src/).  §4.4: "Unit applies only to types Counter,
Unknown, Gauge"; a second `UNIT` is an error. -/
def MetricFamilyMarshal.try_add_unit (fm : MetricFamilyMarshal) (u : String) :
    Except ParseErr MetricFamilyMarshal :=
  if !(fm.family_type.getD .unknown).can_have_units then
    .error (.invalidMetric "Family cannot have a unit")
  else
    match fm.unit with
    | some _ => .error (.invalidMetric "Family already has a unit")
    | none => .ok { fm with unit := some u }

/-- Modelled from the spec: `MetricFamilyMarshal::try_set_label_names`
(internal module, absent from src/).  §4.4 step 4: "on the first sample, bind
`family.label_names` to the effective label-name list.  On subsequent samples,
reject if label names differ." -/
def MetricFamilyMarshal.try_set_label_names (fm : MetricFamilyMarshal)
    (names : List String) : Except ParseErr MetricFamilyMarshal :=
  match fm.label_names with
  | none => .ok { fm with label_names := some names }
  | some existing =>
    if existing ≠ names then
      .error (.invalidMetric "Metrics in family have different label names")
    else .ok fm

/-- Modelled from the spec: `MetricFamilyMarshal::get_metric_by_labelset`
(internal module, absent from src/).  §4.4 step 6 / §9: linear scan for an
existing sample with the same effective labelset. -/
def MetricFamilyMarshal.get_metric_by_labelset (fm : MetricFamilyMarshal)
    (lv : List String) : Option MetricMarshal :=
  fm.metrics.find? (fun m => m.label_values = lv)

/-- Write-back of an in-place mutation of the sample with labelset `lv`
(the `&mut` returned by `get_metric_by_labelset_mut` in Rust). -/
def setMetricByLabelset : List MetricMarshal → List String → MetricMarshal → List MetricMarshal
  | [], _, _ => []
  | m :: rest, lv, m' =>
    if m.label_values = lv then m' :: rest else m :: setMetricByLabelset rest lv m'

/-! ### The dispatch-table actions (src lines 279-888)

Each action is the Lean counterpart of one closure in the `handlers` table of
`process_new_metric`.  Rust's in-place mutation of `existing_metric` becomes a
returned `MetricMarshal`; the `unreachable!()` arms (the metric's value variant
never mismatches the family type that created it) are modelled as a distinct
error. -/

/-- Signature of a dispatch-table action (`MetricProcesser`): sample being
mutated, sample value, full (sorted) label names and values, exemplar, and the
`created` flag. -/
abbrev MetricAction :=
  MetricMarshal → MetricNumber → List String → List String → Option Exemplar → Bool →
    Except ParseErr MetricMarshal

/-- The `unreachable!()` arms of the action closures. -/
def unreachableErr : ParseErr := .invalidMetric "unreachable"

/-- Shared body of the histogram/gauge-histogram `_bucket` closures
(src lines 283-325 and 432-471): read the `le` label, parse it as `f64`,
append a bucket. -/
def bucketOf (metric_value : MetricNumber) (label_names label_values : List String)
    (exemplar : Option Exemplar) : Except ParseErr HistogramBucket :=
  match label_names.findIdx? (fun s => s = "le") with
  | none => .error unreachableErr
  | some i =>
    match label_values[i]? with
    | none => .error unreachableErr
    | some bound =>
      match parseF64 bound with
      | none => .error (.invalidMetric ("Invalid histogram bound: " ++ bound))
      | some bb => .ok ⟨metric_value, bb, exemplar⟩

/-- Histogram `_bucket` action (src lines 283-325). -/
def histogramBucketAction : MetricAction := fun m v lns lvs ex _ =>
  match bucketOf v lns lvs ex with
  | .error e => .error e
  | .ok bucket =>
    match m.value with
    | .histogram hv =>
      .ok { m with value := .histogram { hv with buckets := hv.buckets ++ [bucket] } }
    | _ => .error unreachableErr

/-- Shared non-negative-integer extraction of the `_count`/`_gcount` closures. -/
def countValueOf (what : String) (v : MetricNumber) : Except ParseErr ℕ :=
  match v.as_i64 with
  | some z =>
    if z < 0 then .error (.invalidMetric (what ++ " counts must be positive"))
    else .ok z.toNat
  | none => .error (.invalidMetric (what ++ " counts must be integers"))

/-- Histogram `_count` action (src lines 327-371). -/
def histogramCountAction : MetricAction := fun m v _ _ _ _ =>
  match m.value with
  | .histogram hv =>
    match countValueOf "Histogram" v with
    | .error e => .error e
    | .ok n =>
      match hv.count with
      | some _ => .error .duplicateMetric
      | none => .ok { m with value := .histogram { hv with count := some n } }
  | _ => .error unreachableErr

/-- Histogram `_created` action (src lines 372-400). -/
def histogramCreatedAction : MetricAction := fun m v _ _ _ _ =>
  match m.value with
  | .histogram hv =>
    match hv.created with
    | some _ => .error .duplicateMetric
    | none => .ok { m with value := .histogram { hv with created := some v.as_f64 } }
  | _ => .error unreachableErr

/-- Histogram `_sum` action (src lines 401-426). -/
def histogramSumAction : MetricAction := fun m v _ _ _ _ =>
  match m.value with
  | .histogram hv =>
    if hv.sum.isSome then .error .duplicateMetric
    else .ok { m with value := .histogram { hv with sum := some v } }
  | _ => .error unreachableErr

/-- GaugeHistogram `_bucket` action (src lines 432-471). -/
def gaugeHistogramBucketAction : MetricAction := fun m v lns lvs ex _ =>
  match bucketOf v lns lvs ex with
  | .error e => .error e
  | .ok bucket =>
    match m.value with
    | .gaugehistogram hv =>
      .ok { m with value := .gaugehistogram { hv with buckets := hv.buckets ++ [bucket] } }
    | _ => .error unreachableErr

/-- GaugeHistogram `_gcount` action (src lines 473-516). -/
def gaugeHistogramCountAction : MetricAction := fun m v _ _ _ _ =>
  match m.value with
  | .gaugehistogram hv =>
    match countValueOf "Histogram" v with
    | .error e => .error e
    | .ok n =>
      match hv.count with
      | some _ => .error .duplicateMetric
      | none => .ok { m with value := .gaugehistogram { hv with count := some n } }
  | _ => .error unreachableErr

/-- GaugeHistogram `_gsum` action (src lines 518-543). -/
def gaugeHistogramSumAction : MetricAction := fun m v _ _ _ _ =>
  match m.value with
  | .gaugehistogram hv =>
    if hv.sum.isSome then .error .duplicateMetric
    else .ok { m with value := .gaugehistogram { hv with sum := some v } }
  | _ => .error unreachableErr

/-- Counter `_total` action (src lines 549-581): duplicate check, then reject
negative or NaN totals. -/
def counterTotalAction : MetricAction := fun m v _ _ _ _ =>
  match m.value with
  | .counter cv =>
    if cv.value.isSome then .error .duplicateMetric
    else
      if v.as_f64.flt (.finite 0) || v.as_f64.isNan then
        .error (.invalidMetric "Counter totals must be non negative")
      else .ok { m with value := .counter { cv with value := some v } }
  | _ => .error unreachableErr

/-- Counter `_created` action (src lines 583-607). -/
def counterCreatedAction : MetricAction := fun m v _ _ _ _ =>
  match m.value with
  | .counter cv =>
    if cv.created.isSome then .error .duplicateMetric
    else .ok { m with value := .counter { cv with created := some v.as_f64 } }
  | _ => .error unreachableErr

/-- Gauge action (src lines 610-638). -/
def gaugeAction : MetricAction := fun m v _ _ _ _ =>
  match m.value with
  | .gauge gv =>
    if gv.isSome then .error .duplicateMetric
    else .ok { m with value := .gauge (some v) }
  | _ => .error unreachableErr

/-- StateSet acceptance condition of src lines 665-667: the value is accepted
unless `as_f64 != 0.0` and `|as_f64 - 1.0| > f64::EPSILON` (IEEE semantics:
NaN fails the `>` comparison and is therefore accepted). -/
def statesetValueOk (v : MetricNumber) : Bool :=
  v.as_f64.feq (.finite 0) || !((v.as_f64.fsub (.finite 1)).fabs.fgt F64.epsilon)

/-- StateSet action (src lines 641-684): duplicate check, labelset must be
non-empty, value must pass `statesetValueOk`. -/
def statesetAction : MetricAction := fun m v _ _ _ _ =>
  match m.value with
  | .stateset sv =>
    if sv.isSome then .error .duplicateMetric
    else if m.label_values.isEmpty then
      .error (.invalidMetric "Stateset must have labels")
    else if !statesetValueOk v then
      .error (.invalidMetric "Stateset value must be 0 or 1")
    else .ok { m with value := .stateset (some v) }
  | _ => .error unreachableErr

/-- Unknown action (src lines 686-714). -/
def unknownAction : MetricAction := fun m v _ _ _ _ =>
  match m.value with
  | .unknown uv =>
    if uv.isSome then .error .duplicateMetric
    else .ok { m with value := .unknown (some v) }
  | _ => .error unreachableErr

/-- Info `_info` action (src lines 716-751): value must be the integer 1;
a labelset may appear only once (`created` flag); the metric is not mutated. -/
def infoAction : MetricAction := fun m v _ _ _ created =>
  match v.as_i64 with
  | none => .error (.invalidMetric "Info values must be integers")
  | some z =>
    if z ≠ 1 then .error (.invalidMetric "Info values must be 1")
    else if !created then .error .duplicateMetric
    else .ok m

/-- Summary `_count` action (src lines 755-795). -/
def summaryCountAction : MetricAction := fun m v _ _ _ _ =>
  match m.value with
  | .summary sv =>
    match countValueOf "Summary" v with
    | .error e => .error e
    | .ok n =>
      match sv.count with
      | some _ => .error .duplicateMetric
      | none => .ok { m with value := .summary { sv with count := some n } }
  | _ => .error unreachableErr

/-- Summary `_sum` action (src lines 796-828): reject negative or NaN sums. -/
def summarySumAction : MetricAction := fun m v _ _ _ _ =>
  if v.as_f64.flt (.finite 0) || v.as_f64.isNan then
    .error (.invalidMetric "Summary sums must be non negative")
  else
    match m.value with
    | .summary sv =>
      if sv.sum.isSome then .error .duplicateMetric
      else .ok { m with value := .summary { sv with sum := some v } }
    | _ => .error unreachableErr

/-- Summary quantile action (src lines 829-885): non-NaN values must be
non-negative; the `quantile` label must parse to a non-NaN `f64` in `[0,1]`. -/
def summaryQuantileAction : MetricAction := fun m v lns lvs _ _ =>
  if !v.as_f64.isNan && v.as_f64.flt (.finite 0) then
    .error (.invalidMetric "Summary quantiles can't be negative")
  else
    match lns.findIdx? (fun s => s = "quantile") with
    | none => .error unreachableErr
    | some i =>
      match lvs[i]? with
      | none => .error unreachableErr
      | some bound =>
        match parseF64 bound with
        | none => .error (.invalidMetric ("Summary bounds must be numbers (got: " ++ bound ++ ")"))
        | some bb =>
          if !((F64.finite 0).fle bb && bb.fle (.finite 1)) || bb.isNan then
            .error (.invalidMetric "Summary bounds must be between 0 and 1")
          else
            match m.value with
            | .summary sv =>
              .ok { m with value := .summary { sv with quantiles := sv.quantiles ++ [⟨bb, v⟩] } }
            | _ => .error unreachableErr

/-- The dispatch table (src lines 279-888): for each family type, the ordered
list of `(suffix, mandatory labels, action)` rows.  Each type occurs in exactly
one group of the Rust `handlers` vector, so the nested scan collapses to this
per-type table. -/
def rows : OpenMetricsType → List (String × List String × MetricAction)
  | .histogram =>
    [("_bucket", ["le"], histogramBucketAction),
     ("_count", [], histogramCountAction),
     ("_created", [], histogramCreatedAction),
     ("_sum", [], histogramSumAction)]
  | .gaugehistogram =>
    [("_bucket", ["le"], gaugeHistogramBucketAction),
     ("_gcount", [], gaugeHistogramCountAction),
     ("_gsum", [], gaugeHistogramSumAction)]
  | .counter =>
    [("_total", [], counterTotalAction),
     ("_created", [], counterCreatedAction)]
  | .gauge => [("", [], gaugeAction)]
  | .stateset => [("", [], statesetAction)]
  | .unknown => [("", [], unknownAction)]
  | .info => [("_info", [], infoAction)]
  | .summary =>
    [("_count", [], summaryCountAction),
     ("_sum", [], summarySumAction),
     ("", ["quantile"], summaryQuantileAction)]

/-- Row selection: the first row of the family type's group whose suffix is a
suffix of the metric name (src lines 899-904). -/
def findRow (t : OpenMetricsType) (metric_name : String) :
    Option (String × List String × MetricAction) :=
  (rows t).find? (fun r => strEndsWith metric_name r.1)

/-! ### `process_new_metric` (src lines 270-1003), split into its stages -/

/-- Mandatory-label removal (src lines 906-920): each mandatory label must be
contained in the original `label_names`; it is then removed (with its value)
from the running `actual` lists.  The `position(..).unwrap()` cannot fail for
the tables above (mandatory lists are duplicate-free singletons); the panic is
modelled as `unreachableErr`. -/
def removeMandatory : List String → List String → List String → List String →
    Except ParseErr (List String × List String)
  | [], _, actual_names, actual_values => .ok (actual_names, actual_values)
  | label :: restLabels, label_names, actual_names, actual_values =>
    if label_names.contains label then
      match actual_names.findIdx? (fun s => s = label) with
      | some i =>
        removeMandatory restLabels label_names (actual_names.eraseIdx i) (actual_values.eraseIdx i)
      | none => .error unreachableErr
    else .error (.invalidMetric ("Missing mandatory label for metric: " ++ label))

/-- Interleaved-labelset check and bookkeeping (src lines 922-938): fail if a
different labelset is current and this one was already seen; in every
non-failing case set `current_label_set` and append to `seen_label_sets`. -/
def interleaveCheck (fm : MetricFamilyMarshal) (actual_label_values : List String) :
    Except ParseErr MetricFamilyMarshal :=
  match fm.current_label_set with
  | some s =>
    if s ≠ actual_label_values ∧ actual_label_values ∈ fm.seen_label_sets then
      .error (.invalidMetric "Interwoven labelsets")
    else
      .ok { fm with current_label_set := some actual_label_values,
                    seen_label_sets := fm.seen_label_sets ++ [actual_label_values] }
  | none =>
    .ok { fm with current_label_set := some actual_label_values,
                  seen_label_sets := fm.seen_label_sets ++ [actual_label_values] }

/-- Rust `str::trim_end_matches`: repeatedly strip the suffix from the end
(all trailing repetitions, not just one); the empty suffix strips nothing. -/
def trimEndGo : ℕ → String → String → String
  | 0, s, _ => s
  | n + 1, s, suffix =>
    if suffix ≠ "" && strEndsWith s suffix then
      trimEndGo n (strDropRight s suffix.length) suffix
    else s

/-- `metric_name.trim_end_matches(suffix)` (src line 946). -/
def trim_end_matches (s suffix : String) : String :=
  trimEndGo s.length s suffix

/-- Label-name binding and family-name binding (src lines 940-955):
`try_set_label_names`, then compare the suffix-trimmed metric name against the
bound family name, binding it if absent. -/
def bindNames (fm : MetricFamilyMarshal) (metric_name suffix : String)
    (actual_label_names : List String) : Except ParseErr MetricFamilyMarshal :=
  match fm.try_set_label_names actual_label_names with
  | .error e => .error e
  | .ok fm1 =>
    match fm1.name with
    | some n =>
      if n ≠ trim_end_matches metric_name suffix then
        .error (.invalidMetric ("Invalid Name in metric family: "
          ++ trim_end_matches metric_name suffix ++ " != " ++ n))
      else .ok fm1
    | none => .ok { fm1 with name := some (trim_end_matches metric_name suffix) }

/-- Run an action against the sample with labelset `lv` and write the mutated
sample back (the `&mut` discipline of the Rust code). -/
def runAction (fm : MetricFamilyMarshal) (lv : List String) (metric : MetricMarshal)
    (action : MetricAction) (metric_value : MetricNumber)
    (label_names label_values : List String) (exemplar : Option Exemplar)
    (created : Bool) : Except ParseErr MetricFamilyMarshal :=
  match action metric metric_value label_names label_values exemplar created with
  | .error e => .error e
  | .ok m' => .ok { fm with metrics := setMetricByLabelset fm.metrics lv m' }

/-- Composite lookup and timestamp rules (src lines 957-994): find the sample
with the same effective labelset; on a collision enforce the timestamp rules
(backwards timestamp and one-sided timestamp fail; a not-older timestamp on a
single-line type silently drops the sample); otherwise instantiate a zero
value of the family type and run the action with `created = true`. -/
def runOnMetric (fm : MetricFamilyMarshal) (metric_type : OpenMetricsType)
    (actual_label_values : List String) (timestamp : Option F64)
    (action : MetricAction) (metric_value : MetricNumber)
    (label_names label_values : List String) (exemplar : Option Exemplar) :
    Except ParseErr MetricFamilyMarshal :=
  match fm.get_metric_by_labelset actual_label_values with
  | some metric =>
    match metric.timestamp, timestamp with
    | some mt, some t =>
      if t.flt mt then
        .error (.invalidMetric "Timestamps went backwarts in family")
      else if t.fge mt && !metric_type.can_have_multiple_lines then
        .ok fm
      else
        runAction fm actual_label_values metric action metric_value label_names label_values
          exemplar false
    | some _, none =>
      .error (.invalidMetric
        "Missing timestamp in family (one metric had a timestamp, another didn't)")
    | none, some _ =>
      .error (.invalidMetric
        "Missing timestamp in family (one metric had a timestamp, another didn't)")
    | none, none =>
      runAction fm actual_label_values metric action metric_value label_names label_values
        exemplar false
  | none =>
    runAction { fm with metrics := fm.metrics ++
        [⟨actual_label_values, timestamp, (fm.family_type.getD .unknown).get_type_value⟩] }
      actual_label_values
      ⟨actual_label_values, timestamp, (fm.family_type.getD .unknown).get_type_value⟩
      action metric_value label_names label_values exemplar true

/-- `MetricFamilyMarshal::process_new_metric` (src lines 270-1003). -/
def MetricFamilyMarshal.process_new_metric (fm : MetricFamilyMarshal)
    (metric_name : String) (metric_value : MetricNumber)
    (label_names label_values : List String)
    (timestamp : Option F64) (exemplar : Option Exemplar) :
    Except ParseErr MetricFamilyMarshal :=
  if !(fm.family_type.getD .unknown).can_have_exemplar metric_name && exemplar.isSome then
    .error (.invalidMetric "Metric Type is not allowed exemplars")
  else
    match findRow (fm.family_type.getD .unknown) metric_name with
    | none => .error (.invalidMetric ("Found weird metric name for type: " ++ metric_name))
    | some (suffix, mandatory, action) =>
      match removeMandatory mandatory label_names label_names label_values with
      | .error e => .error e
      | .ok (actual_names, actual_values) =>
        match interleaveCheck fm actual_values with
        | .error e => .error e
        | .ok fm1 =>
          match bindNames fm1 metric_name suffix actual_names with
          | .error e => .error e
          | .ok fm2 =>
            runOnMetric fm2 (fm.family_type.getD .unknown) actual_values timestamp action
              metric_value label_names label_values exemplar

/-! ### Validation (src lines 143-268) -/

/-- The histogram bucket-count monotonicity scan of src lines 214-223:
starting from `f64::NEG_INFINITY`, fail whenever a bucket count is
IEEE-less-than its predecessor. -/
def bucketsMonotone : F64 → List HistogramBucket → Bool
  | _, [] => true
  | last, b :: rest =>
    if b.count.as_f64.flt last then false else bucketsMonotone b.count.as_f64 rest

/-- The histogram part of `MarshalledMetric::validate` (src lines 161-224). -/
def histogramChecks (gauge_histogram : Bool) (hv : HistogramValue) : Except ParseErr Unit :=
  if hv.buckets.isEmpty then
    .error (.invalidMetric "Histograms must have at least one bucket")
  else if !hv.buckets.any (fun b => b.upper_bound.feq .inf) then
    .error (.invalidMetric "Histograms must have a +INF bucket")
  else if hv.buckets.any (fun b => b.upper_bound.flt (.finite 0)) then
    if hv.sum.isSome ∧ ¬gauge_histogram then
      .error (.invalidMetric "Histograms cannot have a sum with a negative bucket")
    else if hv.sum.isSome ∧ hv.count = none then
      .error (.invalidMetric "Count must be present if sum is present")
    else if hv.sum = none ∧ hv.count.isSome then
      .error (.invalidMetric "Sum must be present if count is present")
    else if !bucketsMonotone .neginf hv.buckets then
      .error (.invalidMetric "Histograms must be cumulative")
    else .ok ()
  else if hv.sum.isSome ∧ ((hv.sum.getD (.int 0)).as_f64.flt (.finite 0) = true) then
    .error (.invalidMetric "Histograms cannot have a negative sum without a negative bucket")
  else if hv.sum.isSome ∧ hv.count = none then
    .error (.invalidMetric "Count must be present if sum is present")
  else if hv.sum = none ∧ hv.count.isSome then
    .error (.invalidMetric "Sum must be present if count is present")
  else if !bucketsMonotone .neginf hv.buckets then
    .error (.invalidMetric "Histograms must be cumulative")
  else .ok ()

/-- `MarshalledMetric::validate` (src lines 143-237).  The Rust label-arity
condition `(is_none && !is_empty) || unwrap().len() != len()` panics when
`label_names` is `None` and the sample has no labels; that panic (unreachable
through the pipeline, which always binds `label_names` before adding a sample)
is modelled as an error. -/
def MetricMarshal.validate (m : MetricMarshal) (fm : MetricFamilyMarshal) :
    Except ParseErr Unit :=
  match fm.label_names with
  | none =>
    if m.label_values ≠ [] then
      .error (.invalidMetric "Metrics in family have different label sets")
    else
      .error (.invalidMetric "panic: unwrap of label_names")
  | some ln =>
    if ln.length ≠ m.label_values.length then
      .error (.invalidMetric "Metrics in family have different label sets")
    else if fm.unit.isSome ∧ fm.metrics = [] then
      .error (.invalidMetric "Can't have metric with unit and no samples")
    else
      match m.value with
      | .histogram hv => histogramChecks false hv
      | .gaugehistogram hv => histogramChecks true hv
      | .counter cv =>
        if cv.value = none then .error (.invalidMetric "Counter is missing a _total")
        else .ok ()
      | _ => .ok ()

/-- The per-metric validation loop of `MarshalledMetricFamily::validate`
(src lines 263-265). -/
def metricsValidate : List MetricMarshal → MetricFamilyMarshal → Except ParseErr Unit
  | [], _ => .ok ()
  | m :: rest, fm =>
    match m.validate fm with
    | .error e => .error e
    | .ok _ => metricsValidate rest fm

/-- `MarshalledMetricFamily::validate` (src lines 242-268).  Note the stateset
condition: the error fires when the bound label names do NOT contain the
family name (the error message in the source states the opposite). -/
def MetricFamilyMarshal.validate (fm : MetricFamilyMarshal) : Except ParseErr Unit :=
  match fm.name with
  | none => .error (.invalidMetric "Metric didn't have a name")
  | some n =>
    if fm.family_type = some .stateset ∧ fm.label_names.isSome ∧
        ¬(n ∈ fm.label_names.getD []) then
      .error (.invalidMetric
        "Stateset must not have a label with the same name as its MetricFamily")
    else
      metricsValidate fm.metrics fm

/-! ### Finalized families (the `public` output types and the `From` impls) -/

/-- `CounterValue` (public module): counter with a mandatory total. -/
structure CounterValue where
  value : MetricNumber
  created : Option F64
deriving DecidableEq

/-- `OpenMetricsValue` (public module): the finalized sample value. -/
inductive OpenMetricsValue where
  | unknown (v : MetricNumber)
  | untyped (v : MetricNumber)
  | gauge (v : MetricNumber)
  | counter (c : CounterValue)
  | histogram (h : HistogramValue)
  | stateset (v : MetricNumber)
  | gaugehistogram (h : HistogramValue)
  | info
  | summary (s : SummaryValue)
deriving DecidableEq

/-- `From<MetricValueMarshal> for OpenMetricsValue` (src lines 22-36).  The
Rust conversion `unwrap`s the scalar options; `none` here models the panic
(unreachable through the pipeline: validation and the actions guarantee the
scalars are set). -/
def freezeValue : MetricValueMarshal → Option OpenMetricsValue
  | .unknown (some v) => some (.unknown v)
  | .unknown none => none
  | .untyped (some v) => some (.untyped v)
  | .untyped none => none
  | .gauge (some v) => some (.gauge v)
  | .gauge none => none
  | .counter cv =>
    match cv.value with
    | some v => some (.counter ⟨v, cv.created⟩)
    | none => none
  | .histogram hv => some (.histogram hv)
  | .stateset (some v) => some (.stateset v)
  | .stateset none => none
  | .gaugehistogram hv => some (.gaugehistogram hv)
  | .info => some .info
  | .summary sv => some (.summary sv)

/-- Total version of `freezeValue`; the panic case is replaced by the inert
placeholder `info` (again unreachable through the pipeline). -/
def freezeValueD (v : MetricValueMarshal) : OpenMetricsValue :=
  (freezeValue v).getD .info

/-- `Sample<OpenMetricsValue>` (public module). -/
structure Sample where
  label_values : List String
  timestamp : Option F64
  value : OpenMetricsValue
deriving DecidableEq

/-- Finalized `MetricFamily` (public module). -/
structure MetricFamily where
  family_name : String
  label_names : List String
  family_type : OpenMetricsType
  help : String
  unit : String
  samples : List Sample
deriving DecidableEq

/-- `From<MetricFamilyMarshal> for MetricFamily` (src lines 1006-1025):
unwrap the name (asserted present), default the other descriptors, convert the
samples. -/
def familyFreeze (fm : MetricFamilyMarshal) : MetricFamily :=
  { family_name := fm.name.getD ""
    label_names := fm.label_names.getD []
    family_type := fm.family_type.getD .unknown
    help := fm.help.getD ""
    unit := fm.unit.getD ""
    samples := fm.metrics.map (fun m => ⟨m.label_values, m.timestamp, freezeValueD m.value⟩) }

/-! ### The per-family event pipeline (src lines 1032-1227)

The grammar front-end is out of scope here (see the string layer below); a
family block is a list of already-tokenized descriptor/sample lines, exactly
the rule children `parse_metric_family` walks. -/

/-- The three descriptor kinds. -/
inductive DescriptorKind where
  | help
  | type
  | unit
deriving DecidableEq

/-- A tokenized `# HELP|TYPE|UNIT <name> <payload>` line. -/
structure DescLine where
  kind : DescriptorKind
  name : String
  payload : String
deriving DecidableEq

/-- A tokenized sample line: name, labels in brace order, parsed value,
optional timestamp and exemplar. -/
structure RawSample where
  name : String
  labels : List (String × String)
  value : MetricNumber
  timestamp : Option F64
  exemplar : Option Exemplar
deriving DecidableEq

/-- One rule child of a `metricfamily` rule. -/
inductive Line where
  | descriptor (d : DescLine)
  | sample (s : RawSample)
deriving DecidableEq

/-- `parse_metric_descriptor` (src lines 1032-1066). -/
def parseMetricDescriptor (fm : MetricFamilyMarshal) (d : DescLine) :
    Except ParseErr MetricFamilyMarshal :=
  match d.kind with
  | .help =>
    match fm.set_or_test_name d.name with
    | .error e => .error e
    | .ok fm1 => fm1.try_add_help d.payload
  | .type =>
    match fm.set_or_test_name d.name with
    | .error e => .error e
    | .ok fm1 =>
      match OpenMetricsType.tryFromStr d.payload with
      | .error e => .error e
      | .ok t => fm1.try_add_type t
  | .unit =>
    if fm.name = none ∨ fm.name ≠ some d.name then
      .error (.invalidMetric "UNIT metric name doesn't match family")
    else fm.try_add_unit d.payload

/-- The duplicate-label scan of `parse_labels` (src lines 1112-1125): walk the
labels in brace order, reporting the first name already pushed. -/
def findDupName : List (String × String) → List (String × String) → Option String
  | _, [] => none
  | acc, (n, v) :: rest =>
    if acc.any (fun p => p.1 = n) then some n
    else findDupName (acc ++ [(n, v)]) rest

/-- Lexicographic comparison of character lists (the order `str::Ord` induces:
byte order and code-point order agree under UTF-8). -/
def charListLeB : List Char → List Char → Bool
  | [], _ => true
  | _ :: _, [] => false
  | a :: as, b :: bs =>
    if a < b then true
    else if b < a then false
    else charListLeB as bs

/-- The `sort_by_key(|l| l.0)` comparator of src line 1127. -/
def labelLeB (a b : String × String) : Bool := charListLeB a.1.data b.1.data

/-- `parse_labels` (src lines 1106-1130): reject duplicate label names, then
sort by label name (Rust's stable `sort_by_key`; on duplicate-free names the
sorted list is unique, so insertion sort is an exact model). -/
def parse_labels (l : List (String × String)) :
    Except ParseErr (List (String × String)) :=
  match findDupName [] l with
  | some n =>
    .error (.invalidMetric ("Found label `" ++ n ++ "` twice in the same labelset"))
  | none => .ok (l.insertionSort (fun a b => labelLeB a b = true))

/-- `parse_sample` (src lines 1132-1197) at the event level: sort the labels,
split into names/values, hand off to `process_new_metric`.  (Value, timestamp
and exemplar arrive already parsed in this layer.) -/
def parseSample (fm : MetricFamilyMarshal) (s : RawSample) :
    Except ParseErr MetricFamilyMarshal :=
  match parse_labels s.labels with
  | .error e => .error e
  | .ok sorted =>
    fm.process_new_metric s.name s.value (sorted.map Prod.fst) (sorted.map Prod.snd)
      s.timestamp s.exemplar

/-- One rule child of `parse_metric_family` (src lines 1206-1222): descriptors
are rejected once any sample exists. -/
def processLine (fm : MetricFamilyMarshal) (l : Line) : Except ParseErr MetricFamilyMarshal :=
  match l with
  | .descriptor d =>
    if fm.metrics.isEmpty then parseMetricDescriptor fm d
    else .error (.invalidMetric "Metric Descriptor after samples")
  | .sample s => parseSample fm s

/-- The child loop of `parse_metric_family`. -/
def processLines : MetricFamilyMarshal → List Line → Except ParseErr MetricFamilyMarshal
  | fm, [] => .ok fm
  | fm, l :: rest =>
    match processLine fm l with
    | .error e => .error e
    | .ok fm' => processLines fm' rest

/-- `parse_metric_family` (src lines 1199-1227): drive the builder over the
children, validate, freeze. -/
def parse_metric_family (lines : List Line) : Except ParseErr MetricFamily :=
  match processLines .empty lines with
  | .error e => .error e
  | .ok fm =>
    match fm.validate with
    | .error e => .error e
    | .ok _ => .ok (familyFreeze fm)

/-- The exposition: an insertion-ordered name-to-family map. -/
abbrev Exposition := List (String × MetricFamily)

/-- The family loop of `parse_openmetrics` (src lines 1237-1252): parse each
family block, reject duplicate family names, insert in order. -/
def processFamilies : Exposition → List (List Line) → Except ParseErr Exposition
  | acc, [] => .ok acc
  | acc, b :: rest =>
    match parse_metric_family b with
    | .error e => .error e
    | .ok fam =>
      if acc.any (fun p => p.1 = fam.family_name) then
        .error (.invalidMetric ("Found a metric family called " ++ fam.family_name ++
          ", after that family was finalised"))
      else processFamilies (acc ++ [(fam.family_name, fam)]) rest

/-- `parse_openmetrics` restricted to the semantic layer: the exposition's
family blocks arrive as tokenized rule events (the grammar front-end and the
EOF discipline are handled by the string layer below). -/
def parse_openmetrics_events (blocks : List (List Line)) : Except ParseErr Exposition :=
  processFamilies [] blocks

/-! ### The string layer (src lines 1229-1276 plus a spec-modelled front-end)

The pest grammar `openmetrics.pest` is not under src/.  The tokenizer below is
modelled from the spec (§4.1, §6.2): LF-separated lines, descriptor lines
`# HELP|TYPE|UNIT <name> <payload>`, sample lines
`name[{label="value",...}] value [timestamp]`, and the `# EOF` terminator
whose span end feeds the src-level trailing-content check.  Escapes inside
quoted label values and exemplars are not modelled at this layer (inputs using
them are rejected as syntax errors); no property below depends on them.
Offsets are in characters, which coincides with Rust's byte offsets on the
ASCII format tokens involved. -/

/-- Split a character list on a separator (the semantics of
`str::split` / `String.splitOn` for a single-character separator). -/
def splitOnChar (sep : Char) : List Char → List (List Char)
  | [] => [[]]
  | c :: rest =>
    if c = sep then [] :: splitOnChar sep rest
    else
      match splitOnChar sep rest with
      | [] => [[c]]
      | l :: ls => (c :: l) :: ls

/-- The lines of the input, split on `'\n'`. -/
def splitLines (s : String) : List String :=
  (splitOnChar '\n' s.data).map String.mk

/-- Character offset of the start of line `i` (each earlier line costs its
length plus the newline). -/
def lineOffset : List String → ℕ → ℕ
  | _, 0 => 0
  | [], _ + 1 => 0
  | l :: rest, i + 1 => l.length + 1 + lineOffset rest i

/-- Modelled from the spec: descriptor-line tokenization.  `rest` is the text
after `"# HELP "` / `"# TYPE "` / `"# UNIT "`: a nonempty name up to the first
space, the remainder (if any) is the payload. -/
def parseDescriptorLine (kind : DescriptorKind) (rest : List Char) : Except ParseErr Line :=
  let name := rest.takeWhile (fun c => c ≠ ' ')
  if name = [] then .error (.parseError "syntax: empty descriptor name")
  else
    let after := rest.drop name.length
    let payload : List Char :=
      match after with
      | ' ' :: r => r
      | _ => []
    .ok (.descriptor ⟨kind, String.mk name, String.mk payload⟩)

/-- Modelled from the spec: one `label="value"` token. -/
def parseLabelTok (tok : List Char) : Except ParseErr (String × String) :=
  let n := tok.takeWhile (fun c => c ≠ '=')
  match tok.drop n.length with
  | '=' :: '"' :: r =>
    if r ≠ [] ∧ r.getLast? = some '"' then
      let v := r.dropLast
      if n ≠ [] ∧ ¬v.contains '"' then .ok (String.mk n, String.mk v)
      else .error (.parseError "syntax: bad label")
    else .error (.parseError "syntax: bad label")
  | _ => .error (.parseError "syntax: bad label")

/-- Modelled from the spec: a comma-separated label list. -/
def parseLabelToks : List (List Char) → Except ParseErr (List (String × String))
  | [] => .ok []
  | t :: rest =>
    match parseLabelTok t with
    | .error e => .error e
    | .ok p =>
      match parseLabelToks rest with
      | .error e => .error e
      | .ok ps => .ok (p :: ps)

/-- Modelled from the spec: the `value [timestamp]` tail of a sample line
(exemplars are not modelled at the string layer). -/
def parseSampleTail (name : String) (labels : List (String × String)) (tail : List Char) :
    Except ParseErr Line :=
  if tail.contains '#' then .error (.parseError "syntax: exemplars not modelled")
  else
    match (splitOnChar ' ' tail).filter (fun t => t ≠ []) with
    | [v] =>
      match parseMetricNumberStr (String.mk v) with
      | some mv => .ok (.sample ⟨name, labels, mv, none, none⟩)
      | none => .error (.invalidMetric ("Metric Value must be a number (got: " ++ String.mk v ++ ")"))
    | [v, ts] =>
      match parseMetricNumberStr (String.mk v) with
      | some mv =>
        match parseF64 (String.mk ts) with
        | some t => .ok (.sample ⟨name, labels, mv, some t, none⟩)
        | none => .error (.parseError "syntax: bad timestamp")
      | none => .error (.invalidMetric ("Metric Value must be a number (got: " ++ String.mk v ++ ")"))
    | _ => .error (.parseError "syntax: bad sample line")

/-- Modelled from the spec: sample-line tokenization. -/
def parseSampleLine (cs : List Char) : Except ParseErr Line :=
  let name := cs.takeWhile (fun c => c ≠ '{' ∧ c ≠ ' ')
  if name = [] then .error (.parseError "syntax: empty sample name")
  else
    match cs.drop name.length with
    | '{' :: r =>
      let inner := r.takeWhile (fun c => c ≠ '}')
      match r.drop inner.length with
      | '}' :: tail =>
        let toks := if inner = [] then [] else splitOnChar ',' inner
        match parseLabelToks toks with
        | .error e => .error e
        | .ok labels => parseSampleTail (String.mk name) labels tail
      | _ => .error (.parseError "syntax: unterminated labels")
    | rest => parseSampleTail (String.mk name) [] rest

/-- Modelled from the spec: classify one line. -/
def classifyLine (l : String) : Except ParseErr Line :=
  let cs := l.data
  if "# HELP ".data.isPrefixOf cs then parseDescriptorLine .help (cs.drop 7)
  else if "# TYPE ".data.isPrefixOf cs then parseDescriptorLine .type (cs.drop 7)
  else if "# UNIT ".data.isPrefixOf cs then parseDescriptorLine .unit (cs.drop 7)
  else
    match cs with
    | '#' :: _ => .error (.parseError "syntax: stray comment")
    | _ => parseSampleLine cs

/-- Classify every line before the EOF token. -/
def classifyAll : List String → Except ParseErr (List Line)
  | [] => .ok []
  | l :: rest =>
    match classifyLine l with
    | .error e => .error e
    | .ok line =>
      match classifyAll rest with
      | .error e => .error e
      | .ok lines => .ok (line :: lines)

/-- Is the line a descriptor? -/
def isDescLine : Line → Bool
  | .descriptor _ => true
  | .sample _ => false

/-- Modelled from the spec (§4.1): group the tokenized lines into
`metricfamily` blocks, each a run of descriptor lines followed by a run of
sample lines. -/
def groupBlocks : ℕ → List Line → List (List Line)
  | 0, _ => []
  | _, [] => []
  | fuel + 1, lines =>
    let descs := lines.takeWhile isDescLine
    let rest1 := lines.drop descs.length
    let samps := rest1.takeWhile (fun l => !isDescLine l)
    let rest2 := rest1.drop samps.length
    (descs ++ samps) :: groupBlocks fuel rest2

/-- Modelled from the spec: the grammar front-end.  Returns the family blocks
before the first `# EOF` line and, when that line exists, the character offset
of the end of the `# EOF` token (the `kw_eof` span end queried by src lines
1256-1258). -/
def lexExposition (s : String) : Except ParseErr (List (List Line) × Option ℕ) :=
  let lines := splitLines s
  match lines.findIdx? (fun l => l = "# EOF") with
  | none =>
    match classifyAll lines with
    | .error e => .error e
    | .ok ls => .ok (groupBlocks ls.length ls, none)
  | some i =>
    match classifyAll (lines.take i) with
    | .error e => .error e
    | .ok ls => .ok (groupBlocks ls.length ls, some (lineOffset lines i + 5))

/-- `exposition_bytes.ends_with('\n')`. -/
def endsWithNl (s : String) : Bool := s.data.getLast? = some '\n'

/-- The EOF-token span check of src lines 1256-1263: text after the token is
fatal unless it is exactly one trailing newline. -/
def eofSpanCheck (eofEnd len : ℕ) (endsNl : Bool) : Except ParseErr Unit :=
  if eofEnd ≠ len ∧ ¬(eofEnd = len - 1 ∧ endsNl = true) then
    .error (.invalidMetric "Found text after the EOF token")
  else .ok ()

/-- `parse_openmetrics` (src lines 1027-1276): tokenize, process the family
blocks in order, then enforce the EOF discipline (the span check at the
`kw_eof` event, src lines 1253-1264, and the missing-EOF check, src lines
1269-1273). -/
def parse_openmetrics (s : String) : Except ParseErr Exposition :=
  match lexExposition s with
  | .error e => .error e
  | .ok (blocks, eofEnd) =>
    match parse_openmetrics_events blocks with
    | .error e => .error e
    | .ok expo =>
      match eofEnd with
      | some e =>
        match eofSpanCheck e s.length (endsWithNl s) with
        | .error err => .error err
        | .ok _ => .ok expo
      | none => .error (.invalidMetric "Didn't find an EOF token")

/-! ## Helper lemmas about the builder stages -/

/-- `interleaveCheck` succeeds only with the exact bookkeeping update. -/
theorem interleaveCheck_ok {fm fm1 : MetricFamilyMarshal} {av : List String}
    (h : interleaveCheck fm av = .ok fm1) :
    fm1 = { fm with current_label_set := some av,
                    seen_label_sets := fm.seen_label_sets ++ [av] } := by
  unfold interleaveCheck at h
  split at h
  · split at h
    · simp at h
    · exact (Except.ok.inj h).symm
  · exact (Except.ok.inj h).symm

/-- `try_set_label_names` only ever touches `label_names`. -/
theorem try_set_label_names_ok {fm fm1 : MetricFamilyMarshal} {names : List String}
    (h : fm.try_set_label_names names = .ok fm1) :
    fm1.name = fm.name ∧ fm1.metrics = fm.metrics ∧
      fm1.current_label_set = fm.current_label_set ∧
      fm1.seen_label_sets = fm.seen_label_sets ∧
      fm1.family_type = fm.family_type := by
  unfold MetricFamilyMarshal.try_set_label_names at h
  split at h
  · obtain rfl := Except.ok.inj h
    exact ⟨rfl, rfl, rfl, rfl, rfl⟩
  · split at h
    · simp at h
    · obtain rfl := Except.ok.inj h
      exact ⟨rfl, rfl, rfl, rfl, rfl⟩

/-- `bindNames` only ever touches `label_names` and `name`. -/
theorem bindNames_ok {fm fm2 : MetricFamilyMarshal} {metric_name suffix : String}
    {an : List String} (h : bindNames fm metric_name suffix an = .ok fm2) :
    fm2.metrics = fm.metrics ∧ fm2.current_label_set = fm.current_label_set ∧
      fm2.seen_label_sets = fm.seen_label_sets ∧ fm2.family_type = fm.family_type := by
  unfold bindNames at h
  split at h
  · simp at h
  · rename_i fm1 hset
    obtain ⟨-, hm, hc, hs, ht⟩ := try_set_label_names_ok hset
    split at h
    · split at h
      · simp at h
      · obtain rfl := Except.ok.inj h
        exact ⟨hm, hc, hs, ht⟩
    · obtain rfl := Except.ok.inj h
      exact ⟨hm, hc, hs, ht⟩

/-- `runAction` only ever touches `metrics`. -/
theorem runAction_ok {fm fm' : MetricFamilyMarshal} {lv : List String} {m : MetricMarshal}
    {act : MetricAction} {v : MetricNumber} {lns lvs : List String} {ex : Option Exemplar}
    {created : Bool} (h : runAction fm lv m act v lns lvs ex created = .ok fm') :
    fm'.current_label_set = fm.current_label_set ∧
      fm'.seen_label_sets = fm.seen_label_sets ∧ fm'.name = fm.name ∧
      fm'.label_names = fm.label_names ∧ fm'.family_type = fm.family_type := by
  unfold runAction at h
  split at h
  · simp at h
  · obtain rfl := Except.ok.inj h
    exact ⟨rfl, rfl, rfl, rfl, rfl⟩

/-- `runOnMetric` never touches the interleaving bookkeeping, the names, or
the family type. -/
theorem runOnMetric_ok {fm fm' : MetricFamilyMarshal} {t : OpenMetricsType}
    {av : List String} {ts : Option F64} {act : MetricAction} {v : MetricNumber}
    {lns lvs : List String} {ex : Option Exemplar}
    (h : runOnMetric fm t av ts act v lns lvs ex = .ok fm') :
    fm'.current_label_set = fm.current_label_set ∧
      fm'.seen_label_sets = fm.seen_label_sets ∧ fm'.name = fm.name ∧
      fm'.label_names = fm.label_names ∧ fm'.family_type = fm.family_type := by
  unfold runOnMetric at h
  split at h
  · split at h
    · split at h
      · simp at h
      · split at h
        · obtain rfl := Except.ok.inj h
          exact ⟨rfl, rfl, rfl, rfl, rfl⟩
        · exact runAction_ok h
    · simp at h
    · simp at h
    · exact runAction_ok h
  · obtain ⟨h1, h2, h3, h4, h5⟩ := runAction_ok h
    exact ⟨h1, h2, h3, h4, h5⟩

/-! ## Claim C1 -/

/-- Claim C1 counterexample: the exposition of spec scenario 5,
`# TYPE s stateset` followed by `s{s="on"} 1`, in which the family name `s`
appears among the label names.  The claim (and spec) say this input yields an
`InvalidMetric` error; the parser accepts it: the validator's condition is
inverted with respect to its own error message (src lines 249-261 fire when
the family name does NOT appear among the label names). -/
theorem claim_C1_counterexample :
    parse_openmetrics "# TYPE s stateset\ns\x7bs=\"on\"\x7d 1\n# EOF\n"
      = .ok [("s", ⟨"s", ["s"], .stateset, "", "",
          [⟨["on"], none, .stateset (.int 1)⟩]⟩)] := by
  decide

/-- Claim C1 (amended): family-level validation of a StateSet family with a
bound name and bound label names rejects the family exactly when the family
name does NOT appear among the label names (the inverse of the claim); when
the name does appear, validation proceeds to the per-metric checks and does
not fire this rule. -/
theorem claim_C1_theorem (fm : MetricFamilyMarshal) (n : String) (L : List String)
    (hty : fm.family_type = some .stateset) (hn : fm.name = some n)
    (hl : fm.label_names = some L) :
    (n ∉ L → fm.validate = .error (.invalidMetric
      "Stateset must not have a label with the same name as its MetricFamily")) ∧
    (n ∈ L → fm.validate = metricsValidate fm.metrics fm) := by
  constructor <;> intro h <;>
    simp [MetricFamilyMarshal.validate, hn, hty, hl, h]

/-- Claim C1 witness: instantiating `claim_C1_theorem` at the builder state of
the counterexample family (name `s`, label names `[s]`) and at a variant with
label names `[other]`. -/
theorem claim_C1_witness :
    (MetricFamilyMarshal.validate
        ⟨some "s", some ["other"], some .stateset, none, none, [], none, []⟩
      = .error (.invalidMetric
          "Stateset must not have a label with the same name as its MetricFamily")) ∧
    (MetricFamilyMarshal.validate
        ⟨some "s", some ["s"], some .stateset, none, none, [], none, []⟩
      = metricsValidate []
          ⟨some "s", some ["s"], some .stateset, none, none, [], none, []⟩) :=
  ⟨(claim_C1_theorem _ "s" ["other"] rfl rfl rfl).1 (by decide),
   (claim_C1_theorem _ "s" ["s"] rfl rfl rfl).2 (by decide)⟩

/-! ## Claim C2 -/

/-- Claim C2 (code bug): a family whose unit is bound and non-empty but which
has no samples is accepted by `parse_openmetrics`, contradicting the claim
(and the spec): the unit/samples check of src lines 155-159 sits inside the
per-metric validation, which never runs when `metrics` is empty. -/
theorem claim_C2_theorem :
    parse_openmetrics "# TYPE a counter\n# UNIT a seconds\n# EOF\n"
      = .ok [("a", ⟨"a", [], .counter, "", "seconds", []⟩)] := by
  decide

/-! ## Claim C3 -/

/-- Claim C3 counterexample: with the family name bound to `a` by the TYPE
descriptor, the sample `a_total_total 5` matches the Counter `_total` row.
Under the claim, the base is the name with that ONE suffix removed,
`a_total ≠ a`, so the parse must fail; the code uses `trim_end_matches`,
which strips ALL trailing repetitions, computes base `a`, and accepts. -/
theorem claim_C3_counterexample :
    parse_openmetrics "# TYPE a counter\na_total_total 5\n# EOF\n"
      = .ok [("a", ⟨"a", [], .counter, "", "",
          [⟨[], none, .counter ⟨.int 5, none⟩⟩]⟩)] ∧
    strDropRight "a_total_total" "_total".length = "a_total" ∧
    trim_end_matches "a_total_total" "_total" = "a" := by
  refine ⟨by decide, by decide, by decide⟩

/-- Claim C3 (amended): the base name used for name binding is
`trim_end_matches metric_name suffix` (ALL trailing repetitions of the suffix
removed, not just one).  If the family name is bound and differs from this
base the parse fails with `InvalidMetric`; if it is unbound it becomes bound
to this base; if it equals the base, binding succeeds unchanged. -/
theorem claim_C3_theorem (fm fm1 : MetricFamilyMarshal) (metric_name suffix : String)
    (an : List String) (hset : fm.try_set_label_names an = .ok fm1) :
    (∀ n, fm1.name = some n → n ≠ trim_end_matches metric_name suffix →
      bindNames fm metric_name suffix an = .error (.invalidMetric
        ("Invalid Name in metric family: " ++ trim_end_matches metric_name suffix
          ++ " != " ++ n))) ∧
    (∀ n, fm1.name = some n → n = trim_end_matches metric_name suffix →
      bindNames fm metric_name suffix an = .ok fm1) ∧
    (fm1.name = none →
      bindNames fm metric_name suffix an
        = .ok { fm1 with name := some (trim_end_matches metric_name suffix) }) := by
  refine ⟨fun n hn hne => ?_, fun n hn heq => ?_, fun hn => ?_⟩
  · simp only [bindNames, hset, hn]
    simp [hne]
  · simp only [bindNames, hset, hn]
    simp [heq]
  · simp only [bindNames, hset, hn]

/-- Claim C3 witness: instantiating `claim_C3_theorem` at the state of the
counterexample (`name` bound to `a`, sample `a_total_total`, suffix `_total`,
base `a`) and at an unbound state. -/
theorem claim_C3_witness :
    (bindNames ⟨some "a", none, some .counter, none, none, [], none, []⟩
        "a_total_total" "_total" [])
      = .ok ⟨some "a", some [], some .counter, none, none, [], none, []⟩ ∧
    (bindNames ⟨some "b", none, some .counter, none, none, [], none, []⟩
        "a_total_total" "_total" [])
      = .error (.invalidMetric "Invalid Name in metric family: a != b") ∧
    (bindNames ⟨none, none, none, none, none, [], none, []⟩
        "a_total_total" "_total" [])
      = .ok ⟨some "a", some [], none, none, none, [], none, []⟩ := by
  refine ⟨(claim_C3_theorem ⟨some "a", none, some .counter, none, none, [], none, []⟩
      ⟨some "a", some [], some .counter, none, none, [], none, []⟩
      "a_total_total" "_total" [] (by decide)).2.1 "a" rfl (by decide), ?_, ?_⟩
  · exact (claim_C3_theorem ⟨some "b", none, some .counter, none, none, [], none, []⟩
      ⟨some "b", some [], some .counter, none, none, [], none, []⟩
      "a_total_total" "_total" [] (by decide)).1 "b" rfl (by decide)
  · exact (claim_C3_theorem ⟨none, none, none, none, none, [], none, []⟩
      ⟨none, some [], none, none, none, [], none, []⟩
      "a_total_total" "_total" [] (by decide)).2.2 rfl

/-! ## Claim C4 -/

/-- An IEEE `>=` that holds forces the IEEE `<` to fail. -/
theorem flt_eq_false_of_fge {a b : F64} (h : a.fge b = true) : a.flt b = false := by
  simp only [F64.fge, F64.fle, Bool.and_eq_true, Bool.not_eq_true'] at h
  exact h.2

/-- Reduction of `process_new_metric` to `runOnMetric` once the dispatch, the
mandatory labels, the interleaving check and the name binding are fixed. -/
theorem process_new_metric_reduce (fm fm1 fm2 : MetricFamilyMarshal)
    (metric_name : String) (v : MetricNumber) (lns lvs : List String)
    (ts : Option F64) (ex : Option Exemplar) (suffix : String) (mand : List String)
    (act : MetricAction) (an av : List String)
    (hex : (!(fm.family_type.getD .unknown).can_have_exemplar metric_name && ex.isSome)
      = false)
    (hrow : findRow (fm.family_type.getD .unknown) metric_name = some (suffix, mand, act))
    (hman : removeMandatory mand lns lns lvs = .ok (an, av))
    (hint : interleaveCheck fm av = .ok fm1)
    (hbind : bindNames fm1 metric_name suffix an = .ok fm2) :
    fm.process_new_metric metric_name v lns lvs ts ex
      = runOnMetric fm2 (fm.family_type.getD .unknown) av ts act v lns lvs ex := by
  simp only [MetricFamilyMarshal.process_new_metric, hex, hrow, hman, hint, hbind,
    Bool.false_eq_true, if_false]

/-- Claim C4: the timestamp rules on a labelset collision (src lines 957-985).
When the incoming sample reaches the composite lookup (dispatch row found,
mandatory labels present, interleaving and name binding succeed) and an
existing sample has the same effective labelset: (a) both timestamps present
and the new one strictly smaller fails the parse; (b) exactly one timestamp
present fails the parse; (c) both present, the new one `>=`, and a family type
that does not allow multiple lines per labelset silently drops the sample —
the call succeeds without invoking the action (the metrics are unchanged). -/
theorem claim_C4_theorem (fm fm1 fm2 : MetricFamilyMarshal) (metric_name : String)
    (v : MetricNumber) (lns lvs : List String) (ts : Option F64) (ex : Option Exemplar)
    (suffix : String) (mand : List String) (act : MetricAction)
    (an av : List String) (m : MetricMarshal)
    (hex : (!(fm.family_type.getD .unknown).can_have_exemplar metric_name && ex.isSome)
      = false)
    (hrow : findRow (fm.family_type.getD .unknown) metric_name = some (suffix, mand, act))
    (hman : removeMandatory mand lns lns lvs = .ok (an, av))
    (hint : interleaveCheck fm av = .ok fm1)
    (hbind : bindNames fm1 metric_name suffix an = .ok fm2)
    (hget : fm2.get_metric_by_labelset av = some m) :
    (∀ mt t, m.timestamp = some mt → ts = some t → t.flt mt = true →
      fm.process_new_metric metric_name v lns lvs ts ex
        = .error (.invalidMetric "Timestamps went backwarts in family")) ∧
    (m.timestamp.isSome ≠ ts.isSome →
      fm.process_new_metric metric_name v lns lvs ts ex
        = .error (.invalidMetric
          "Missing timestamp in family (one metric had a timestamp, another didn't)")) ∧
    (∀ mt t, m.timestamp = some mt → ts = some t → t.fge mt = true →
      (fm.family_type.getD .unknown).can_have_multiple_lines = false →
      fm.process_new_metric metric_name v lns lvs ts ex = .ok fm2 ∧
        fm2.metrics = fm.metrics) := by
  have hp := process_new_metric_reduce fm fm1 fm2 metric_name v lns lvs ts ex suffix mand
    act an av hex hrow hman hint hbind
  have hmet : fm2.metrics = fm.metrics := by
    have h1 := interleaveCheck_ok hint
    have h2 := (bindNames_ok hbind).1
    rw [h2, h1]
  refine ⟨fun mt t hmt hts hlt => ?_, fun hone => ?_, fun mt t hmt hts hge hml => ?_⟩
  · rw [hp]
    simp only [runOnMetric, hget, hmt, hts, hlt, if_true]
  · rw [hp]
    simp only [runOnMetric, hget]
    rcases hmt : m.timestamp with _ | mt <;> rcases hts : ts with _ | t <;>
      rw [hmt, hts] at hone <;> simp at hone ⊢
  · have hlt := flt_eq_false_of_fge hge
    refine ⟨?_, hmet⟩
    rw [hp]
    simp only [runOnMetric, hget, hmt, hts, hlt, hge, hml, Bool.false_eq_true, if_false,
      Bool.not_false, Bool.true_and, Bool.and_true, Bool.and_self, if_true]

/-- Claim C4 witness: a gauge family (not a multiple-lines type) with an
existing sample at labelset `[]` and timestamp 1; an incoming sample with
timestamp 2 is silently dropped (case c); timestamp 0 fails (case a); a
missing timestamp fails (case b). -/
theorem claim_C4_witness :
    (MetricFamilyMarshal.process_new_metric
        ⟨some "g", some [], some .gauge, none, none,
          [⟨[], some (.finite 1), .gauge (some (.int 7))⟩], some [], [[]]⟩
        "g" (.int 9) [] [] (some (.finite 2)) none
      = .ok ⟨some "g", some [], some .gauge, none, none,
          [⟨[], some (.finite 1), .gauge (some (.int 7))⟩], some [], [[], []]⟩) ∧
    (MetricFamilyMarshal.process_new_metric
        ⟨some "g", some [], some .gauge, none, none,
          [⟨[], some (.finite 1), .gauge (some (.int 7))⟩], some [], [[]]⟩
        "g" (.int 9) [] [] (some (.finite 0)) none
      = .error (.invalidMetric "Timestamps went backwarts in family")) ∧
    (MetricFamilyMarshal.process_new_metric
        ⟨some "g", some [], some .gauge, none, none,
          [⟨[], some (.finite 1), .gauge (some (.int 7))⟩], some [], [[]]⟩
        "g" (.int 9) [] [] none none
      = .error (.invalidMetric
          "Missing timestamp in family (one metric had a timestamp, another didn't)")) := by
  refine ⟨((claim_C4_theorem
      ⟨some "g", some [], some .gauge, none, none,
        [⟨[], some (.finite 1), .gauge (some (.int 7))⟩], some [], [[]]⟩
      ⟨some "g", some [], some .gauge, none, none,
        [⟨[], some (.finite 1), .gauge (some (.int 7))⟩], some [], [[], []]⟩
      ⟨some "g", some [], some .gauge, none, none,
        [⟨[], some (.finite 1), .gauge (some (.int 7))⟩], some [], [[], []]⟩
      "g" (.int 9) [] [] (some (.finite 2)) none "" [] gaugeAction [] []
      ⟨[], some (.finite 1), .gauge (some (.int 7))⟩
      (by decide) rfl (by decide) (by decide) (by decide) (by decide)).2.2
      (.finite 1) (.finite 2) rfl rfl (by decide) (by decide)).1, ?_, ?_⟩
  · exact (claim_C4_theorem
      ⟨some "g", some [], some .gauge, none, none,
        [⟨[], some (.finite 1), .gauge (some (.int 7))⟩], some [], [[]]⟩
      ⟨some "g", some [], some .gauge, none, none,
        [⟨[], some (.finite 1), .gauge (some (.int 7))⟩], some [], [[], []]⟩
      ⟨some "g", some [], some .gauge, none, none,
        [⟨[], some (.finite 1), .gauge (some (.int 7))⟩], some [], [[], []]⟩
      "g" (.int 9) [] [] (some (.finite 0)) none "" [] gaugeAction [] []
      ⟨[], some (.finite 1), .gauge (some (.int 7))⟩
      (by decide) rfl (by decide) (by decide) (by decide) (by decide)).1
      (.finite 1) (.finite 0) rfl rfl (by decide)
  · exact (claim_C4_theorem
      ⟨some "g", some [], some .gauge, none, none,
        [⟨[], some (.finite 1), .gauge (some (.int 7))⟩], some [], [[]]⟩
      ⟨some "g", some [], some .gauge, none, none,
        [⟨[], some (.finite 1), .gauge (some (.int 7))⟩], some [], [[], []]⟩
      ⟨some "g", some [], some .gauge, none, none,
        [⟨[], some (.finite 1), .gauge (some (.int 7))⟩], some [], [[], []]⟩
      "g" (.int 9) [] [] none none "" [] gaugeAction [] []
      ⟨[], some (.finite 1), .gauge (some (.int 7))⟩
      (by decide) rfl (by decide) (by decide) (by decide) (by decide)).2.1
      (by decide)

/-! ## Claim C5 -/

/-- Claim C5: the interleaved-labelsets rule (src lines 922-938).  Once the
dispatch row matches and the mandatory labels are removed, giving effective
labelset `L = av`: if a different labelset is current and `L` was seen before,
the parse fails with the interleaving error; and whenever the call succeeds,
`current_label_set` has been set to `L` and `L` appended to
`seen_label_sets`. -/
theorem claim_C5_theorem (fm : MetricFamilyMarshal) (metric_name : String)
    (v : MetricNumber) (lns lvs : List String) (ts : Option F64) (ex : Option Exemplar)
    (suffix : String) (mand : List String) (act : MetricAction) (an av : List String)
    (hex : (!(fm.family_type.getD .unknown).can_have_exemplar metric_name && ex.isSome)
      = false)
    (hrow : findRow (fm.family_type.getD .unknown) metric_name = some (suffix, mand, act))
    (hman : removeMandatory mand lns lns lvs = .ok (an, av)) :
    (∀ s, fm.current_label_set = some s → s ≠ av → av ∈ fm.seen_label_sets →
      fm.process_new_metric metric_name v lns lvs ts ex
        = .error (.invalidMetric "Interwoven labelsets")) ∧
    (∀ fm', fm.process_new_metric metric_name v lns lvs ts ex = .ok fm' →
      fm'.current_label_set = some av ∧
        fm'.seen_label_sets = fm.seen_label_sets ++ [av]) := by
  constructor
  · intro s hs hne hmem
    simp only [MetricFamilyMarshal.process_new_metric, hex, hrow, hman,
      Bool.false_eq_true, if_false]
    simp only [interleaveCheck, hs]
    simp [hne, hmem]
  · intro fm' h
    simp only [MetricFamilyMarshal.process_new_metric, hex, hrow, hman,
      Bool.false_eq_true, if_false] at h
    split at h
    · simp at h
    · rename_i fm1 hint
      split at h
      · simp at h
      · rename_i fm2 hbind
        obtain ⟨hc', hs', -, -, -⟩ := runOnMetric_ok h
        obtain ⟨-, hc2, hs2, -⟩ := bindNames_ok hbind
        have h1 := interleaveCheck_ok hint
        subst h1
        rw [hc', hs', hc2, hs2]
        exact ⟨rfl, rfl⟩

/-- Claim C5 witness: instantiating `claim_C5_theorem` on a stateset family.
A sample with labelset `[b]` after `[a]` when `[b]` was already seen fails
with the interleaving error; processing a fresh sample records its labelset
as current and appends it to the seen list. -/
theorem claim_C5_witness :
    (MetricFamilyMarshal.process_new_metric
        ⟨some "s", some ["l"], some .stateset, none, none,
          [⟨["b"], none, .stateset (some (.int 1))⟩, ⟨["a"], none, .stateset (some (.int 1))⟩],
          some ["a"], [["b"], ["a"]]⟩
        "s" (.int 1) ["l"] ["b"] none none
      = .error (.invalidMetric "Interwoven labelsets")) ∧
    (MetricFamilyMarshal.process_new_metric
        ⟨some "s", some ["l"], some .stateset, none, none, [], none, []⟩
        "s" (.int 1) ["l"] ["b"] none none
      = .ok ⟨some "s", some ["l"], some .stateset, none, none,
          [⟨["b"], none, .stateset (some (.int 1))⟩], some ["b"], [["b"]]⟩ →
      (some ["b"] : Option (List String)) = some ["b"] ∧
        ([["b"]] : List (List String)) = [] ++ [["b"]]) := by
  constructor
  · exact (claim_C5_theorem
      ⟨some "s", some ["l"], some .stateset, none, none,
        [⟨["b"], none, .stateset (some (.int 1))⟩, ⟨["a"], none, .stateset (some (.int 1))⟩],
        some ["a"], [["b"], ["a"]]⟩
      "s" (.int 1) ["l"] ["b"] none none "" [] statesetAction ["l"] ["b"]
      (by decide) rfl (by decide)).1 ["a"] rfl (by decide) (by decide)
  · intro h
    exact (claim_C5_theorem
      ⟨some "s", some ["l"], some .stateset, none, none, [], none, []⟩
      "s" (.int 1) ["l"] ["b"] none none "" [] statesetAction ["l"] ["b"]
      (by decide) rfl (by decide)).2 _ h

/-! ## Descriptor-stage lemmas -/

/-- `set_or_test_name` only ever touches `name`. -/
theorem set_or_test_name_ok {fm fm1 : MetricFamilyMarshal} {n : String}
    (h : fm.set_or_test_name n = .ok fm1) :
    fm1.metrics = fm.metrics ∧ fm1.family_type = fm.family_type := by
  unfold MetricFamilyMarshal.set_or_test_name at h
  split at h
  · obtain rfl := Except.ok.inj h
    exact ⟨rfl, rfl⟩
  · split at h
    · simp at h
    · obtain rfl := Except.ok.inj h
      exact ⟨rfl, rfl⟩

/-- `try_add_help` only ever touches `help`. -/
theorem try_add_help_ok {fm fm1 : MetricFamilyMarshal} {s : String}
    (h : fm.try_add_help s = .ok fm1) :
    fm1.metrics = fm.metrics ∧ fm1.family_type = fm.family_type := by
  unfold MetricFamilyMarshal.try_add_help at h
  split at h
  · simp at h
  · obtain rfl := Except.ok.inj h
    exact ⟨rfl, rfl⟩

/-- `try_add_type` only ever touches `family_type`. -/
theorem try_add_type_ok {fm fm1 : MetricFamilyMarshal} {t : OpenMetricsType}
    (h : fm.try_add_type t = .ok fm1) :
    fm1.metrics = fm.metrics := by
  unfold MetricFamilyMarshal.try_add_type at h
  split at h
  · simp at h
  · obtain rfl := Except.ok.inj h
    rfl

/-- `try_add_unit` only ever touches `unit`. -/
theorem try_add_unit_ok {fm fm1 : MetricFamilyMarshal} {s : String}
    (h : fm.try_add_unit s = .ok fm1) :
    fm1.metrics = fm.metrics ∧ fm1.family_type = fm.family_type := by
  unfold MetricFamilyMarshal.try_add_unit at h
  split at h
  · simp at h
  · split at h
    · simp at h
    · obtain rfl := Except.ok.inj h
      exact ⟨rfl, rfl⟩

/-- A descriptor line never touches `metrics`, and only a TYPE descriptor
touches `family_type`. -/
theorem parseMetricDescriptor_ok {fm fm1 : MetricFamilyMarshal} {d : DescLine}
    (h : parseMetricDescriptor fm d = .ok fm1) :
    fm1.metrics = fm.metrics ∧ (d.kind ≠ .type → fm1.family_type = fm.family_type) := by
  unfold parseMetricDescriptor at h
  split at h
  · -- HELP
    split at h
    · simp at h
    · rename_i fmx hname
      obtain ⟨h1, h2⟩ := try_add_help_ok h
      obtain ⟨h3, h4⟩ := set_or_test_name_ok hname
      exact ⟨h1.trans h3, fun _ => h2.trans h4⟩
  · -- TYPE
    rename_i hk
    split at h
    · simp at h
    · rename_i fmx hname
      split at h
      · simp at h
      · have h1 := try_add_type_ok h
        obtain ⟨h3, -⟩ := set_or_test_name_ok hname
        exact ⟨h1.trans h3, fun hne => absurd hk hne⟩
  · -- UNIT
    split at h
    · simp at h
    · obtain ⟨h1, h2⟩ := try_add_unit_ok h
      exact ⟨h1, fun _ => h2⟩

/-! ## Claim C10 -/

/-- `process_new_metric` never touches `family_type`. -/
theorem process_new_metric_family_type {fm fm' : MetricFamilyMarshal}
    {metric_name : String} {v : MetricNumber} {lns lvs : List String}
    {ts : Option F64} {ex : Option Exemplar}
    (h : fm.process_new_metric metric_name v lns lvs ts ex = .ok fm') :
    fm'.family_type = fm.family_type := by
  unfold MetricFamilyMarshal.process_new_metric at h
  split at h
  · simp at h
  · split at h
    · simp at h
    · split at h
      · simp at h
      · split at h
        · simp at h
        · rename_i fm1 hint
          split at h
          · simp at h
          · rename_i fm2 hbind
            obtain ⟨-, -, -, -, h5⟩ := runOnMetric_ok h
            have h6 := (bindNames_ok hbind).2.2.2
            have h7 := interleaveCheck_ok hint
            rw [h5, h6, h7]

/-- `parseSample` never touches `family_type`. -/
theorem parseSample_family_type {fm fm' : MetricFamilyMarshal} {s : RawSample}
    (h : parseSample fm s = .ok fm') : fm'.family_type = fm.family_type := by
  unfold parseSample at h
  split at h
  · simp at h
  · exact process_new_metric_family_type h

/-- Processing the lines of a family block that contains no TYPE descriptor
leaves `family_type` unchanged. -/
theorem processLines_no_type {lines : List Line} :
    ∀ {fm fm' : MetricFamilyMarshal}, processLines fm lines = .ok fm' →
    (∀ d, Line.descriptor d ∈ lines → d.kind ≠ .type) →
    fm'.family_type = fm.family_type := by
  induction lines with
  | nil =>
    intro fm fm' h _
    exact congrArg MetricFamilyMarshal.family_type (Except.ok.inj h).symm
  | cons l rest ih =>
    intro fm fm' h hno
    unfold processLines at h
    split at h
    · simp at h
    · rename_i fmx hline
      have hrest := ih h (fun d hd => hno d (List.mem_cons_of_mem _ hd))
      have hstep : fmx.family_type = fm.family_type := by
        unfold processLine at hline
        split at hline
        · rename_i d
          split at hline
          · exact (parseMetricDescriptor_ok hline).2
              (hno d (List.mem_cons_self _ _))
          · simp at hline
        · exact parseSample_family_type hline
      exact hrest.trans hstep

/-- Claim C10: a family block with no TYPE descriptor is processed with the
default metric type (`Unknown`): if `parse_metric_family` succeeds on such a
block, the finalized family's type is `Unknown`. -/
theorem claim_C10_theorem (lines : List Line) (fam : MetricFamily)
    (hno : ∀ d, Line.descriptor d ∈ lines → d.kind ≠ .type)
    (h : parse_metric_family lines = .ok fam) :
    fam.family_type = .unknown := by
  unfold parse_metric_family at h
  split at h
  · simp at h
  · rename_i fm hlines
    split at h
    · simp at h
    · obtain rfl := Except.ok.inj h
      have ht : fm.family_type = MetricFamilyMarshal.empty.family_type :=
        processLines_no_type hlines hno
      simp only [familyFreeze, ht]
      rfl

/-- Claim C10 witness: a block consisting of the single sample `a 1` (no
descriptors at all) parses successfully under the Unknown-type rules and, by
`claim_C10_theorem`, yields type `Unknown`. -/
theorem claim_C10_witness :
    parse_metric_family [.sample ⟨"a", [], .int 1, none, none⟩]
      = .ok ⟨"a", [], .unknown, "", "", [⟨[], none, .unknown (.int 1)⟩]⟩ ∧
    (⟨"a", [], .unknown, "", "", [⟨[], none, .unknown (.int 1)⟩]⟩ : MetricFamily).family_type
      = .unknown := by
  refine ⟨by decide, claim_C10_theorem [.sample ⟨"a", [], .int 1, none, none⟩] _ ?_ (by decide)⟩
  intro d hd
  simp at hd

/-! ## Claim C6 -/

/-- What a successful histogram validation guarantees (src lines 161-224). -/
theorem histogramChecks_ok {g : Bool} {hv : HistogramValue}
    (h : histogramChecks g hv = .ok ()) :
    hv.buckets ≠ [] ∧
      hv.buckets.any (fun b => b.upper_bound.feq .inf) = true ∧
      bucketsMonotone .neginf hv.buckets = true ∧
      (hv.sum.isSome ↔ hv.count.isSome) := by
  have hiff : ∀ {p : Prop}, ¬(hv.sum.isSome = true ∧ hv.count = none) →
      ¬(hv.sum = none ∧ hv.count.isSome = true) → p → (hv.sum.isSome ↔ hv.count.isSome) := by
    intro p hsc hcs _
    rcases hs : hv.sum with _ | s <;> rcases hc : hv.count with _ | c <;>
      simp_all
  unfold histogramChecks at h
  split_ifs at h with h1 h2 h3 h4 h5 h6 h7 h8 h9 h10 h11 <;> try simp at h
  · refine ⟨by simpa using h1, by simpa using h2, by simpa using h7, hiff h5 h6 trivial⟩
  · refine ⟨by simpa using h1, by simpa using h2, by simpa using h11, hiff h9 h10 trivial⟩

/-- What a successful per-metric validation guarantees about histogram and
gauge-histogram values. -/
theorem metricValidate_ok_value {m : MetricMarshal} {fm : MetricFamilyMarshal}
    (h : m.validate fm = .ok ()) :
    (∀ hv, m.value = .histogram hv → histogramChecks false hv = .ok ()) ∧
    (∀ hv, m.value = .gaugehistogram hv → histogramChecks true hv = .ok ()) := by
  unfold MetricMarshal.validate at h
  split at h
  · split at h <;> simp at h
  · split at h
    · simp at h
    · split at h
      · simp at h
      · split at h <;>
          constructor <;> intro hv hval <;> simp_all


/-- Every metric of a family that passed the validation loop passed its
per-metric validation. -/
theorem metricsValidate_ok_mem :
    ∀ {ms : List MetricMarshal} {fm : MetricFamilyMarshal},
      metricsValidate ms fm = .ok () → ∀ m ∈ ms, m.validate fm = .ok () := by
  intro ms
  induction ms with
  | nil => intro fm _ m hm; simp at hm
  | cons m0 rest ih =>
    intro fm h m hm
    unfold metricsValidate at h
    split at h
    · simp at h
    · rename_i u hval
      rcases List.mem_cons.mp hm with rfl | hmem
      · cases u; exact hval
      · exact ih h m hmem

/-- A family that passed validation passed the per-metric loop. -/
theorem validate_ok_metricsValidate {fm : MetricFamilyMarshal}
    (h : fm.validate = .ok ()) : metricsValidate fm.metrics fm = .ok () := by
  unfold MetricFamilyMarshal.validate at h
  split at h
  · simp at h
  · split at h
    · simp at h
    · exact h

/-- Decomposition of a successful `parse_metric_family`. -/
theorem parse_metric_family_ok {lines : List Line} {fam : MetricFamily}
    (h : parse_metric_family lines = .ok fam) :
    ∃ fm, processLines .empty lines = .ok fm ∧ fm.validate = .ok () ∧
      fam = familyFreeze fm := by
  unfold parse_metric_family at h
  split at h
  · simp at h
  · rename_i fm hlines
    split at h
    · simp at h
    · rename_i u hval
      cases u
      exact ⟨fm, hlines, hval, (Except.ok.inj h).symm⟩

/-- Samples of a frozen family come from the builder's metrics. -/
theorem familyFreeze_samples {fm : MetricFamilyMarshal} {samp : Sample}
    (h : samp ∈ (familyFreeze fm).samples) :
    ∃ m ∈ fm.metrics, samp = ⟨m.label_values, m.timestamp, freezeValueD m.value⟩ := by
  obtain ⟨m, hm, hs⟩ := List.mem_map.mp h
  exact ⟨m, hm, hs.symm⟩

/-- Freezing produces a histogram value only from a histogram marshal. -/
theorem freezeValueD_histogram {mv : MetricValueMarshal} {hv : HistogramValue}
    (h : freezeValueD mv = .histogram hv) : mv = .histogram hv := by
  rcases mv with v | v | v | cv | h' | v | h' | _ | sv <;>
    first
    | (rcases v with _ | v <;> simp_all [freezeValueD, freezeValue])
    | (rcases hcv : cv.value with _ | v <;> simp_all [freezeValueD, freezeValue])
    | simp_all [freezeValueD, freezeValue]

/-- Freezing produces a gauge-histogram value only from a gauge-histogram
marshal. -/
theorem freezeValueD_gaugehistogram {mv : MetricValueMarshal} {hv : HistogramValue}
    (h : freezeValueD mv = .gaugehistogram hv) : mv = .gaugehistogram hv := by
  rcases mv with v | v | v | cv | h' | v | h' | _ | sv <;>
    first
    | (rcases v with _ | v <;> simp_all [freezeValueD, freezeValue])
    | (rcases hcv : cv.value with _ | v <;> simp_all [freezeValueD, freezeValue])
    | simp_all [freezeValueD, freezeValue]

/-- Freezing produces a stateset value only from a set stateset marshal. -/
theorem freezeValueD_stateset {mv : MetricValueMarshal} {v : MetricNumber}
    (h : freezeValueD mv = .stateset v) : mv = .stateset (some v) := by
  rcases mv with w | w | w | cv | h' | w | h' | _ | sv <;>
    first
    | (rcases w with _ | w <;> simp_all [freezeValueD, freezeValue])
    | (rcases hcv : cv.value with _ | w <;> simp_all [freezeValueD, freezeValue])
    | simp_all [freezeValueD, freezeValue]

/-- Families of a successful family loop come from successfully parsed
blocks (or were already accumulated). -/
theorem processFamilies_mem :
    ∀ {blocks : List (List Line)} {acc expo : Exposition},
      processFamilies acc blocks = .ok expo → ∀ p ∈ expo,
        p ∈ acc ∨ ∃ b ∈ blocks, parse_metric_family b = .ok p.2 := by
  intro blocks
  induction blocks with
  | nil =>
    intro acc expo h p hp
    obtain rfl := Except.ok.inj h
    exact Or.inl hp
  | cons b rest ih =>
    intro acc expo h p hp
    unfold processFamilies at h
    split at h
    · simp at h
    · rename_i fam hfam
      split at h
      · simp at h
      · rcases ih h p hp with hacc | ⟨b', hb', hpb⟩
        · rcases List.mem_append.mp hacc with h1 | h2
          · exact Or.inl h1
          · have hp2 : p = (fam.family_name, fam) := by simpa using h2
            exact Or.inr ⟨b, List.mem_cons_self _ _, by rw [hp2]; exact hfam⟩
        · exact Or.inr ⟨b', List.mem_cons_of_mem _ hb', hpb⟩

/-- Decomposition of a successful string-level parse into the front-end and
the semantic layer. -/
theorem parse_openmetrics_ok_events {s : String} {expo : Exposition}
    (h : parse_openmetrics s = .ok expo) :
    ∃ blocks eofEnd, lexExposition s = .ok (blocks, eofEnd) ∧
      parse_openmetrics_events blocks = .ok expo := by
  unfold parse_openmetrics at h
  split at h
  · simp at h
  · rename_i blocks eofEnd hlex
    split at h
    · simp at h
    · rename_i expo' hev
      refine ⟨blocks, eofEnd, hlex, ?_⟩
      split at h
      · split at h
        · simp at h
        · obtain rfl := Except.ok.inj h
          exact hev
      · simp at h

/-- Claim C6: in every successful parse result, every histogram and
gauge-histogram sample has at least one bucket, has a bucket with upper bound
`+∞` (IEEE equality), has bucket counts that never IEEE-decrease in stream
order, and has `sum` and `count` either both present or both absent. -/
theorem claim_C6_theorem (s : String) (expo : Exposition)
    (h : parse_openmetrics s = .ok expo) :
    ∀ p ∈ expo, ∀ samp ∈ p.2.samples, ∀ hv : HistogramValue,
      (samp.value = .histogram hv ∨ samp.value = .gaugehistogram hv) →
      hv.buckets ≠ [] ∧
        hv.buckets.any (fun b => b.upper_bound.feq .inf) = true ∧
        bucketsMonotone .neginf hv.buckets = true ∧
        (hv.sum.isSome ↔ hv.count.isSome) := by
  intro p hp samp hsamp hv hval
  obtain ⟨blocks, eofEnd, -, hev⟩ := parse_openmetrics_ok_events h
  rcases processFamilies_mem hev p hp with habs | ⟨b, -, hfam⟩
  · simp at habs
  · obtain ⟨fm, -, hvalid, hfreeze⟩ := parse_metric_family_ok hfam
    rw [hfreeze] at hsamp
    obtain ⟨m, hm, rfl⟩ := familyFreeze_samples hsamp
    have hmv := metricsValidate_ok_mem (validate_ok_metricsValidate hvalid) m hm
    rcases hval with hval | hval
    · exact histogramChecks_ok ((metricValidate_ok_value hmv).1 hv
        (freezeValueD_histogram hval))
    · exact histogramChecks_ok ((metricValidate_ok_value hmv).2 hv
        (freezeValueD_gaugehistogram hval))

/-- Claim C6 witness: spec scenario 2 — the histogram family `h` with buckets
`1 → 0`, `+∞ → 3`, `count 3`, `sum 2.5` — parses successfully, and
`claim_C6_theorem` yields the four structural facts for its sample. -/
theorem claim_C6_witness :
    parse_openmetrics
        "# TYPE h histogram\nh_bucket\x7ble=\"1\"\x7d 0\nh_bucket\x7ble=\"+Inf\"\x7d 3\nh_count 3\nh_sum 2.5\n# EOF\n"
      = .ok [("h", ⟨"h", [], .histogram, "", "",
          [⟨[], none, .histogram ⟨[⟨.int 0, .finite 1, none⟩, ⟨.int 3, .inf, none⟩],
            some (.float (.finite (mkRat 25 10))), some 3, none⟩⟩]⟩)] ∧
    (([⟨.int 0, .finite 1, none⟩, ⟨.int 3, .inf, none⟩] : List HistogramBucket) ≠ [] ∧
      ([⟨.int 0, .finite 1, none⟩, ⟨.int 3, .inf, none⟩] : List HistogramBucket).any
        (fun b => b.upper_bound.feq .inf) = true ∧
      bucketsMonotone .neginf [⟨.int 0, .finite 1, none⟩, ⟨.int 3, .inf, none⟩] = true ∧
      ((some (.float (.finite (mkRat 25 10))) : Option MetricNumber).isSome
        ↔ (some 3 : Option ℕ).isSome)) := by
  refine ⟨by decide, ?_⟩
  exact claim_C6_theorem
    "# TYPE h histogram\nh_bucket\x7ble=\"1\"\x7d 0\nh_bucket\x7ble=\"+Inf\"\x7d 3\nh_count 3\nh_sum 2.5\n# EOF\n"
    [("h", ⟨"h", [], .histogram, "", "",
      [⟨[], none, .histogram ⟨[⟨.int 0, .finite 1, none⟩, ⟨.int 3, .inf, none⟩],
        some (.float (.finite (mkRat 25 10))), some 3, none⟩⟩]⟩)]
    (by decide)
    ("h", ⟨"h", [], .histogram, "", "",
      [⟨[], none, .histogram ⟨[⟨.int 0, .finite 1, none⟩, ⟨.int 3, .inf, none⟩],
        some (.float (.finite (mkRat 25 10))), some 3, none⟩⟩]⟩)
    (by decide)
    ⟨[], none, .histogram ⟨[⟨.int 0, .finite 1, none⟩, ⟨.int 3, .inf, none⟩],
      some (.float (.finite (mkRat 25 10))), some 3, none⟩⟩
    (by decide)
    ⟨[⟨.int 0, .finite 1, none⟩, ⟨.int 3, .inf, none⟩],
      some (.float (.finite (mkRat 25 10))), some 3, none⟩
    (Or.inl rfl)


/-! ## Claim C7: action-level preservation of the stateset soundness facts

For each dispatch-table action: a successful run preserves the label values,
and any stored stateset scalar was either already there or was checked by the
stateset action. -/

/-- The uniform conclusion of the per-action lemmas. -/
theorem histogramBucketAction_pres {m m' : MetricMarshal} {v : MetricNumber}
    {lns lvs : List String} {ex : Option Exemplar} {c : Bool}
    (h : histogramBucketAction m v lns lvs ex c = .ok m') :
    m'.label_values = m.label_values ∧ ∀ w, m'.value = .stateset (some w) →
      m.value = .stateset (some w) ∨ (statesetValueOk w = true ∧ m'.label_values ≠ []) := by
  unfold histogramBucketAction at h
  split at h
  · simp at h
  · split at h
    · obtain rfl := Except.ok.inj h
      exact ⟨rfl, fun w hw => by simp at hw⟩
    · simp at h

theorem histogramCountAction_pres {m m' : MetricMarshal} {v : MetricNumber}
    {lns lvs : List String} {ex : Option Exemplar} {c : Bool}
    (h : histogramCountAction m v lns lvs ex c = .ok m') :
    m'.label_values = m.label_values ∧ ∀ w, m'.value = .stateset (some w) →
      m.value = .stateset (some w) ∨ (statesetValueOk w = true ∧ m'.label_values ≠ []) := by
  unfold histogramCountAction at h
  split at h
  · split at h
    · simp at h
    · split at h
      · simp at h
      · obtain rfl := Except.ok.inj h
        exact ⟨rfl, fun w hw => by simp at hw⟩
  · simp at h

theorem histogramCreatedAction_pres {m m' : MetricMarshal} {v : MetricNumber}
    {lns lvs : List String} {ex : Option Exemplar} {c : Bool}
    (h : histogramCreatedAction m v lns lvs ex c = .ok m') :
    m'.label_values = m.label_values ∧ ∀ w, m'.value = .stateset (some w) →
      m.value = .stateset (some w) ∨ (statesetValueOk w = true ∧ m'.label_values ≠ []) := by
  unfold histogramCreatedAction at h
  split at h
  · split at h
    · simp at h
    · obtain rfl := Except.ok.inj h
      exact ⟨rfl, fun w hw => by simp at hw⟩
  · simp at h

theorem histogramSumAction_pres {m m' : MetricMarshal} {v : MetricNumber}
    {lns lvs : List String} {ex : Option Exemplar} {c : Bool}
    (h : histogramSumAction m v lns lvs ex c = .ok m') :
    m'.label_values = m.label_values ∧ ∀ w, m'.value = .stateset (some w) →
      m.value = .stateset (some w) ∨ (statesetValueOk w = true ∧ m'.label_values ≠ []) := by
  unfold histogramSumAction at h
  split at h
  · split at h
    · simp at h
    · obtain rfl := Except.ok.inj h
      exact ⟨rfl, fun w hw => by simp at hw⟩
  · simp at h

theorem gaugeHistogramBucketAction_pres {m m' : MetricMarshal} {v : MetricNumber}
    {lns lvs : List String} {ex : Option Exemplar} {c : Bool}
    (h : gaugeHistogramBucketAction m v lns lvs ex c = .ok m') :
    m'.label_values = m.label_values ∧ ∀ w, m'.value = .stateset (some w) →
      m.value = .stateset (some w) ∨ (statesetValueOk w = true ∧ m'.label_values ≠ []) := by
  unfold gaugeHistogramBucketAction at h
  split at h
  · simp at h
  · split at h
    · obtain rfl := Except.ok.inj h
      exact ⟨rfl, fun w hw => by simp at hw⟩
    · simp at h

theorem gaugeHistogramCountAction_pres {m m' : MetricMarshal} {v : MetricNumber}
    {lns lvs : List String} {ex : Option Exemplar} {c : Bool}
    (h : gaugeHistogramCountAction m v lns lvs ex c = .ok m') :
    m'.label_values = m.label_values ∧ ∀ w, m'.value = .stateset (some w) →
      m.value = .stateset (some w) ∨ (statesetValueOk w = true ∧ m'.label_values ≠ []) := by
  unfold gaugeHistogramCountAction at h
  split at h
  · split at h
    · simp at h
    · split at h
      · simp at h
      · obtain rfl := Except.ok.inj h
        exact ⟨rfl, fun w hw => by simp at hw⟩
  · simp at h

theorem gaugeHistogramSumAction_pres {m m' : MetricMarshal} {v : MetricNumber}
    {lns lvs : List String} {ex : Option Exemplar} {c : Bool}
    (h : gaugeHistogramSumAction m v lns lvs ex c = .ok m') :
    m'.label_values = m.label_values ∧ ∀ w, m'.value = .stateset (some w) →
      m.value = .stateset (some w) ∨ (statesetValueOk w = true ∧ m'.label_values ≠ []) := by
  unfold gaugeHistogramSumAction at h
  split at h
  · split at h
    · simp at h
    · obtain rfl := Except.ok.inj h
      exact ⟨rfl, fun w hw => by simp at hw⟩
  · simp at h

theorem counterTotalAction_pres {m m' : MetricMarshal} {v : MetricNumber}
    {lns lvs : List String} {ex : Option Exemplar} {c : Bool}
    (h : counterTotalAction m v lns lvs ex c = .ok m') :
    m'.label_values = m.label_values ∧ ∀ w, m'.value = .stateset (some w) →
      m.value = .stateset (some w) ∨ (statesetValueOk w = true ∧ m'.label_values ≠ []) := by
  unfold counterTotalAction at h
  split at h
  · split at h
    · simp at h
    · split at h
      · simp at h
      · obtain rfl := Except.ok.inj h
        exact ⟨rfl, fun w hw => by simp at hw⟩
  · simp at h

theorem counterCreatedAction_pres {m m' : MetricMarshal} {v : MetricNumber}
    {lns lvs : List String} {ex : Option Exemplar} {c : Bool}
    (h : counterCreatedAction m v lns lvs ex c = .ok m') :
    m'.label_values = m.label_values ∧ ∀ w, m'.value = .stateset (some w) →
      m.value = .stateset (some w) ∨ (statesetValueOk w = true ∧ m'.label_values ≠ []) := by
  unfold counterCreatedAction at h
  split at h
  · split at h
    · simp at h
    · obtain rfl := Except.ok.inj h
      exact ⟨rfl, fun w hw => by simp at hw⟩
  · simp at h

theorem gaugeAction_pres {m m' : MetricMarshal} {v : MetricNumber}
    {lns lvs : List String} {ex : Option Exemplar} {c : Bool}
    (h : gaugeAction m v lns lvs ex c = .ok m') :
    m'.label_values = m.label_values ∧ ∀ w, m'.value = .stateset (some w) →
      m.value = .stateset (some w) ∨ (statesetValueOk w = true ∧ m'.label_values ≠ []) := by
  unfold gaugeAction at h
  split at h
  · split at h
    · simp at h
    · obtain rfl := Except.ok.inj h
      exact ⟨rfl, fun w hw => by simp at hw⟩
  · simp at h

theorem statesetAction_pres {m m' : MetricMarshal} {v : MetricNumber}
    {lns lvs : List String} {ex : Option Exemplar} {c : Bool}
    (h : statesetAction m v lns lvs ex c = .ok m') :
    m'.label_values = m.label_values ∧ ∀ w, m'.value = .stateset (some w) →
      m.value = .stateset (some w) ∨ (statesetValueOk w = true ∧ m'.label_values ≠ []) := by
  unfold statesetAction at h
  split at h
  · split at h
    · simp at h
    · split at h
      · simp at h
      · split at h
        · simp at h
        · rename_i hempty hok
          obtain rfl := Except.ok.inj h
          refine ⟨rfl, fun w hw => Or.inr ⟨?_, ?_⟩⟩
          · have : v = w := by simpa using hw
            subst this
            simpa using hok
          · simpa using hempty
  · simp at h

theorem unknownAction_pres {m m' : MetricMarshal} {v : MetricNumber}
    {lns lvs : List String} {ex : Option Exemplar} {c : Bool}
    (h : unknownAction m v lns lvs ex c = .ok m') :
    m'.label_values = m.label_values ∧ ∀ w, m'.value = .stateset (some w) →
      m.value = .stateset (some w) ∨ (statesetValueOk w = true ∧ m'.label_values ≠ []) := by
  unfold unknownAction at h
  split at h
  · split at h
    · simp at h
    · obtain rfl := Except.ok.inj h
      exact ⟨rfl, fun w hw => by simp at hw⟩
  · simp at h

theorem infoAction_pres {m m' : MetricMarshal} {v : MetricNumber}
    {lns lvs : List String} {ex : Option Exemplar} {c : Bool}
    (h : infoAction m v lns lvs ex c = .ok m') :
    m'.label_values = m.label_values ∧ ∀ w, m'.value = .stateset (some w) →
      m.value = .stateset (some w) ∨ (statesetValueOk w = true ∧ m'.label_values ≠ []) := by
  unfold infoAction at h
  split at h
  · simp at h
  · split at h
    · simp at h
    · split at h
      · simp at h
      · obtain rfl := Except.ok.inj h
        exact ⟨rfl, fun w hw => Or.inl hw⟩

theorem summaryCountAction_pres {m m' : MetricMarshal} {v : MetricNumber}
    {lns lvs : List String} {ex : Option Exemplar} {c : Bool}
    (h : summaryCountAction m v lns lvs ex c = .ok m') :
    m'.label_values = m.label_values ∧ ∀ w, m'.value = .stateset (some w) →
      m.value = .stateset (some w) ∨ (statesetValueOk w = true ∧ m'.label_values ≠ []) := by
  unfold summaryCountAction at h
  split at h
  · split at h
    · simp at h
    · split at h
      · simp at h
      · obtain rfl := Except.ok.inj h
        exact ⟨rfl, fun w hw => by simp at hw⟩
  · simp at h

theorem summarySumAction_pres {m m' : MetricMarshal} {v : MetricNumber}
    {lns lvs : List String} {ex : Option Exemplar} {c : Bool}
    (h : summarySumAction m v lns lvs ex c = .ok m') :
    m'.label_values = m.label_values ∧ ∀ w, m'.value = .stateset (some w) →
      m.value = .stateset (some w) ∨ (statesetValueOk w = true ∧ m'.label_values ≠ []) := by
  unfold summarySumAction at h
  split at h
  · simp at h
  · split at h
    · split at h
      · simp at h
      · obtain rfl := Except.ok.inj h
        exact ⟨rfl, fun w hw => by simp at hw⟩
    · simp at h

theorem summaryQuantileAction_pres {m m' : MetricMarshal} {v : MetricNumber}
    {lns lvs : List String} {ex : Option Exemplar} {c : Bool}
    (h : summaryQuantileAction m v lns lvs ex c = .ok m') :
    m'.label_values = m.label_values ∧ ∀ w, m'.value = .stateset (some w) →
      m.value = .stateset (some w) ∨ (statesetValueOk w = true ∧ m'.label_values ≠ []) := by
  unfold summaryQuantileAction at h
  split at h
  · simp at h
  · split at h
    · simp at h
    · split at h
      · simp at h
      · split at h
        · simp at h
        · split at h
          · simp at h
          · split at h
            · obtain rfl := Except.ok.inj h
              exact ⟨rfl, fun w hw => by simp at hw⟩
            · simp at h


/-- Every action the dispatch table can return satisfies the uniform
preservation conclusion. -/
theorem findRow_act_pres {t : OpenMetricsType} {name suf : String}
    {mand : List String} {act : MetricAction}
    (hrow : findRow t name = some (suf, mand, act)) :
    ∀ {m m' : MetricMarshal} {v : MetricNumber} {lns lvs : List String}
      {ex : Option Exemplar} {c : Bool},
      act m v lns lvs ex c = .ok m' →
      m'.label_values = m.label_values ∧ ∀ w, m'.value = .stateset (some w) →
        m.value = .stateset (some w) ∨
          (statesetValueOk w = true ∧ m'.label_values ≠ []) := by
  cases t <;> simp only [findRow, rows, List.find?] at hrow <;>
    repeat
      first
      | (exact fun h => histogramBucketAction_pres h)
      | (exact fun h => histogramCountAction_pres h)
      | (exact fun h => histogramCreatedAction_pres h)
      | (exact fun h => histogramSumAction_pres h)
      | (exact fun h => gaugeHistogramBucketAction_pres h)
      | (exact fun h => gaugeHistogramCountAction_pres h)
      | (exact fun h => gaugeHistogramSumAction_pres h)
      | (exact fun h => counterTotalAction_pres h)
      | (exact fun h => counterCreatedAction_pres h)
      | (exact fun h => gaugeAction_pres h)
      | (exact fun h => statesetAction_pres h)
      | (exact fun h => unknownAction_pres h)
      | (exact fun h => infoAction_pres h)
      | (exact fun h => summaryCountAction_pres h)
      | (exact fun h => summarySumAction_pres h)
      | (exact fun h => summaryQuantileAction_pres h)
      | (split at hrow)
      | (simp only [Option.some.injEq, Prod.mk.injEq] at hrow;
         obtain ⟨rfl, rfl, rfl⟩ := hrow)
      | simp at hrow


/-- Membership after a write-back: the element is old or is the replacement. -/
theorem setMetricByLabelset_mem {ms : List MetricMarshal} {lv : List String}
    {m' x : MetricMarshal} (h : x ∈ setMetricByLabelset ms lv m') :
    x ∈ ms ∨ x = m' := by
  induction ms with
  | nil => simp [setMetricByLabelset] at h
  | cons a rest ih =>
    unfold setMetricByLabelset at h
    split at h
    · rcases List.mem_cons.mp h with rfl | hx
      · exact Or.inr rfl
      · exact Or.inl (List.mem_cons_of_mem _ hx)
    · rcases List.mem_cons.mp h with rfl | hx
      · exact Or.inl (List.mem_cons_self _ _)
      · rcases ih hx with h1 | h2
        · exact Or.inl (List.mem_cons_of_mem _ h1)
        · exact Or.inr h2

/-- A freshly instantiated zero value is never a set stateset scalar. -/
theorem get_type_value_ne_stateset_some (t : OpenMetricsType) (w : MetricNumber) :
    t.get_type_value ≠ .stateset (some w) := by
  cases t <;> simp [OpenMetricsType.get_type_value]

/-- The stateset soundness facts survive `runOnMetric` when the action has the
uniform preservation property. -/
theorem runOnMetric_pres {fm fm' : MetricFamilyMarshal} {t : OpenMetricsType}
    {av : List String} {ts : Option F64} {act : MetricAction} {v : MetricNumber}
    {lns lvs : List String} {ex : Option Exemplar}
    (hact : ∀ {m m' : MetricMarshal} {v' : MetricNumber} {lns' lvs' : List String}
      {ex' : Option Exemplar} {c : Bool},
      act m v' lns' lvs' ex' c = .ok m' →
      m'.label_values = m.label_values ∧ ∀ w, m'.value = .stateset (some w) →
        m.value = .stateset (some w) ∨
          (statesetValueOk w = true ∧ m'.label_values ≠ []))
    (h : runOnMetric fm t av ts act v lns lvs ex = .ok fm')
    (hinv : ∀ m ∈ fm.metrics, ∀ w, m.value = .stateset (some w) →
      statesetValueOk w = true ∧ m.label_values ≠ []) :
    ∀ m ∈ fm'.metrics, ∀ w, m.value = .stateset (some w) →
      statesetValueOk w = true ∧ m.label_values ≠ [] := by
  have hrun : ∀ (fm0 : MetricFamilyMarshal) (metric : MetricMarshal) (c : Bool),
      (∀ m ∈ fm0.metrics, ∀ w, m.value = .stateset (some w) →
        statesetValueOk w = true ∧ m.label_values ≠ []) →
      (∀ w, metric.value = .stateset (some w) →
        statesetValueOk w = true ∧ metric.label_values ≠ []) →
      runAction fm0 av metric act v lns lvs ex c = .ok fm' →
      ∀ m ∈ fm'.metrics, ∀ w, m.value = .stateset (some w) →
        statesetValueOk w = true ∧ m.label_values ≠ [] := by
    intro fm0 metric c hinv0 hmetric hra m hm w hw
    unfold runAction at hra
    split at hra
    · simp at hra
    · rename_i m'' hact_eq
      obtain rfl := Except.ok.inj hra
      rcases setMetricByLabelset_mem hm with hold | rfl
      · exact hinv0 m hold w hw
      · obtain ⟨hlv, hss⟩ := hact hact_eq
        rcases hss w hw with hwas | ⟨hok, hne⟩
        · obtain ⟨hok, hne⟩ := hmetric w hwas
          rw [hlv]
          exact ⟨hok, hne⟩
        · exact ⟨hok, hne⟩
  unfold runOnMetric at h
  split at h
  · rename_i metric hget
    have hmem := List.mem_of_find?_eq_some hget
    have hmetric := hinv metric hmem
    split at h
    · split at h
      · simp at h
      · split at h
        · obtain rfl := Except.ok.inj h
          exact hinv
        · exact hrun fm metric false hinv hmetric h
    · simp at h
    · simp at h
    · exact hrun fm metric false hinv hmetric h
  · refine hrun _ _ true ?_ ?_ h
    · intro m hm w hw
      rcases List.mem_append.mp hm with hold | hnew
      · exact hinv m hold w hw
      · have : m = ⟨av, ts, (fm.family_type.getD .unknown).get_type_value⟩ := by
          simpa using hnew
        rw [this] at hw
        exact absurd hw (get_type_value_ne_stateset_some _ w)
    · intro w hw
      exact absurd hw (get_type_value_ne_stateset_some _ w)

/-- The stateset soundness facts survive `process_new_metric`. -/
theorem process_new_metric_pres {fm fm' : MetricFamilyMarshal} {metric_name : String}
    {v : MetricNumber} {lns lvs : List String} {ts : Option F64} {ex : Option Exemplar}
    (h : fm.process_new_metric metric_name v lns lvs ts ex = .ok fm')
    (hinv : ∀ m ∈ fm.metrics, ∀ w, m.value = .stateset (some w) →
      statesetValueOk w = true ∧ m.label_values ≠ []) :
    ∀ m ∈ fm'.metrics, ∀ w, m.value = .stateset (some w) →
      statesetValueOk w = true ∧ m.label_values ≠ [] := by
  unfold MetricFamilyMarshal.process_new_metric at h
  split at h
  · simp at h
  · split at h
    · simp at h
    · rename_i suf mand act hrow
      split at h
      · simp at h
      · rename_i an av hman
        split at h
        · simp at h
        · rename_i fm1 hint
          split at h
          · simp at h
          · rename_i fm2 hbind
            have h1 : fm1.metrics = fm.metrics := by
              rw [interleaveCheck_ok hint]
            have h2 : fm2.metrics = fm.metrics := (bindNames_ok hbind).1.trans h1
            exact runOnMetric_pres (fun hx => findRow_act_pres hrow hx) h
              (by rw [h2]; exact hinv)

/-- The stateset soundness facts survive a whole family block. -/
theorem processLines_pres :
    ∀ {lines : List Line} {fm fm' : MetricFamilyMarshal},
      processLines fm lines = .ok fm' →
      (∀ m ∈ fm.metrics, ∀ w, m.value = .stateset (some w) →
        statesetValueOk w = true ∧ m.label_values ≠ []) →
      ∀ m ∈ fm'.metrics, ∀ w, m.value = .stateset (some w) →
        statesetValueOk w = true ∧ m.label_values ≠ [] := by
  intro lines
  induction lines with
  | nil =>
    intro fm fm' h hinv
    obtain rfl := Except.ok.inj h
    exact hinv
  | cons l rest ih =>
    intro fm fm' h hinv
    unfold processLines at h
    split at h
    · simp at h
    · rename_i fmx hline
      refine ih h ?_
      unfold processLine at hline
      split at hline
      · split at hline
        · have := (parseMetricDescriptor_ok hline).1
          rw [this]
          exact hinv
        · simp at hline
      · unfold parseSample at hline
        split at hline
        · simp at hline
        · exact process_new_metric_pres hline hinv


/-- Claim C7 counterexample: the stateset value check compares against
`f64::EPSILON` (src lines 665-667), so values within one epsilon of 1 are
accepted and stored.  The sample `s{a="x"} 1.0000000000000002` parses
successfully with a stored stateset value that is neither 0 nor 1,
contradicting "value exactly 0 or exactly 1". -/
theorem claim_C7_counterexample :
    parse_openmetrics "# TYPE s stateset\ns\x7bs=\"x\"\x7d 1.0000000000000002\n# EOF\n"
      = .ok [("s", ⟨"s", ["s"], .stateset, "", "",
          [⟨["x"], none,
            .stateset (.float (.finite (mkRat 5000000000000001 5000000000000000)))⟩]⟩)] ∧
    mkRat 5000000000000001 5000000000000000 ≠ (0 : ℚ) ∧
    mkRat 5000000000000001 5000000000000000 ≠ (1 : ℚ) := by
  refine ⟨by decide, by decide, by decide⟩

/-- Claim C7 (amended): in every successful parse, every StateSet sample has
a non-empty labelset and a value `v` accepted by the source's check — `v` is
IEEE-equal to 0, or `|v - 1| > f64::EPSILON` fails (which admits every value
within one epsilon of 1, and NaN).  A StateSet sample line whose value fails
this check, or whose labelset is empty, makes its action fail (the parse can
only avoid the failure when the line is silently dropped by the
duplicate-timestamp rule before the action runs). -/
theorem claim_C7_theorem :
    (∀ (s : String) (expo : Exposition), parse_openmetrics s = .ok expo →
      ∀ p ∈ expo, ∀ samp ∈ p.2.samples, ∀ v, samp.value = .stateset v →
        statesetValueOk v = true ∧ samp.label_values ≠ []) ∧
    (∀ (m : MetricMarshal) (v : MetricNumber) (lns lvs : List String)
        (ex : Option Exemplar) (c : Bool),
      statesetValueOk v = false ∨ m.label_values = [] →
      ∃ e, statesetAction m v lns lvs ex c = .error e) := by
  constructor
  · intro s expo h p hp samp hsamp v hval
    obtain ⟨blocks, eofEnd, -, hev⟩ := parse_openmetrics_ok_events h
    rcases processFamilies_mem hev p hp with habs | ⟨b, -, hfam⟩
    · simp at habs
    · obtain ⟨fm, hlines, -, hfreeze⟩ := parse_metric_family_ok hfam
      rw [hfreeze] at hsamp
      obtain ⟨m, hm, rfl⟩ := familyFreeze_samples hsamp
      have hmv := freezeValueD_stateset hval
      have hinv := processLines_pres hlines
        (by intro m hmem; simp [MetricFamilyMarshal.empty] at hmem) m hm
      exact hinv v hmv
  · intro m v lns lvs ex c hbad
    rcases hml : m.value with w | w | w | cv | h' | sv | h' | _ | s0 <;>
      simp only [statesetAction, hml] <;> try exact ⟨_, rfl⟩
    rcases sv with _ | w
    · rcases hbad with hbad | hbad
      · rcases hemp : m.label_values.isEmpty with hf | ht
        · simp only [hemp, hbad]
          exact ⟨_, rfl⟩
        · simp only [hemp]
          exact ⟨_, rfl⟩
      · have hemp : m.label_values.isEmpty = true := by simp [hbad]
        simp only [hemp]
        exact ⟨_, rfl⟩
    · exact ⟨_, rfl⟩

/-- Claim C7 witness: instantiating the invariant half on the stateset family
`s{s="on"} 1`, and the action half on an empty-labelset metric and on the
value 7. -/
theorem claim_C7_witness :
    (statesetValueOk (.int 1) = true ∧ (["on"] : List String) ≠ []) ∧
    (∃ e, statesetAction ⟨[], none, .stateset none⟩ (.int 1) [] [] none true = .error e) ∧
    (∃ e, statesetAction ⟨["x"], none, .stateset none⟩ (.int 7) [] [] none true
      = .error e) := by
  refine ⟨?_, ?_, ?_⟩
  · exact claim_C7_theorem.1 "# TYPE s stateset\ns\x7bs=\"on\"\x7d 1\n# EOF\n"
      [("s", ⟨"s", ["s"], .stateset, "", "", [⟨["on"], none, .stateset (.int 1)⟩]⟩)]
      (by decide)
      ("s", ⟨"s", ["s"], .stateset, "", "", [⟨["on"], none, .stateset (.int 1)⟩]⟩)
      (by decide)
      ⟨["on"], none, .stateset (.int 1)⟩ (by decide) (.int 1) rfl
  · exact claim_C7_theorem.2 ⟨[], none, .stateset none⟩ (.int 1) [] [] none true
      (Or.inr rfl)
  · exact claim_C7_theorem.2 ⟨["x"], none, .stateset none⟩ (.int 7) [] [] none true
      (Or.inl (by decide))


/-! ## Claim C8 -/

/-- Claim C8: the EOF discipline of `parse_openmetrics` (src lines 1229-1276
over the spec-modelled front-end).  (1) An input with no `# EOF` line fails.
(2) When the front-end finds the EOF token at span end `e`, any trailing
content other than a single newline (`e ≠ len` and not `e = len - 1` with a
trailing newline) fails with an error.  (3) When the EOF token ends the input
(up to one trailing newline) and the semantic layer succeeds, the parse
succeeds: the input is not rejected by the EOF rule. -/
theorem claim_C8_theorem :
    (∀ s : String, "# EOF" ∉ splitLines s → ∃ e, parse_openmetrics s = .error e) ∧
    (∀ (s : String) (blocks : List (List Line)) (e : ℕ),
      lexExposition s = .ok (blocks, some e) →
      e ≠ s.length → ¬(e = s.length - 1 ∧ endsWithNl s = true) →
      ∃ err, parse_openmetrics s = .error err) ∧
    (∀ (s : String) (blocks : List (List Line)) (e : ℕ) (expo : Exposition),
      lexExposition s = .ok (blocks, some e) →
      parse_openmetrics_events blocks = .ok expo →
      (e = s.length ∨ (e = s.length - 1 ∧ endsWithNl s = true)) →
      parse_openmetrics s = .ok expo) := by
  refine ⟨?_, ?_, ?_⟩
  · intro s hno
    have hidx : (splitLines s).findIdx? (fun l => l = "# EOF") = none := by
      rw [List.findIdx?_eq_none_iff]
      intro x hx
      simp only [decide_eq_false_iff_not]
      exact fun hxe => hno (hxe ▸ hx)
    simp only [parse_openmetrics, lexExposition, hidx]
    rcases hc : classifyAll (splitLines s) with err | ls <;> simp only [hc]
    · exact ⟨err, rfl⟩
    · rcases he : parse_openmetrics_events (groupBlocks ls.length ls) with err | expo <;>
        simp only [he]
      · exact ⟨err, rfl⟩
      · exact ⟨_, rfl⟩
  · intro s blocks e hlex hne hnot
    simp only [parse_openmetrics, hlex]
    rcases hev : parse_openmetrics_events blocks with err | expo
    · exact ⟨err, rfl⟩
    · simp only [eofSpanCheck, hne, hnot]
      rw [if_pos ⟨hne, fun hf => hf⟩]
      exact ⟨_, rfl⟩
  · intro s blocks e expo hlex hev hok
    simp only [parse_openmetrics, hlex, hev, eofSpanCheck]
    rcases hok with hok | hok
    · simp [hok]
    · simp [hok]

/-- Claim C8 witness: `x 1` (no EOF) fails; `# EOF` followed by `junk` fails;
`# EOF` with a single trailing newline passes the EOF rule and parses to the
empty exposition. -/
theorem claim_C8_witness :
    (∃ e, parse_openmetrics "x 1" = .error e) ∧
    (∃ e, parse_openmetrics "# EOF\njunk" = .error e) ∧
    parse_openmetrics "# EOF\n" = .ok [] := by
  refine ⟨?_, ?_, ?_⟩
  · exact claim_C8_theorem.1 "x 1" (by decide)
  · exact claim_C8_theorem.2.1 "# EOF\njunk" [] 5 (by decide) (by decide) (by decide)
  · exact claim_C8_theorem.2.2 "# EOF\n" [] 5 [] (by decide) (by decide)
      (Or.inr ⟨by decide, by decide⟩)


/-! ## Claim C9: order properties of the label comparator -/

theorem charListLeB_total : ∀ (a b : List Char),
    charListLeB a b = true ∨ charListLeB b a = true := by
  intro a
  induction a with
  | nil => intro b; exact Or.inl rfl
  | cons x as ih =>
    intro b
    cases b with
    | nil => exact Or.inr rfl
    | cons y bs =>
      by_cases hxy : x < y
      · exact Or.inl (by simp [charListLeB, hxy])
      · by_cases hyx : y < x
        · exact Or.inr (by simp [charListLeB, hyx])
        · have hxy2 : x = y := le_antisymm (not_lt.mp hyx) (not_lt.mp hxy)
          subst hxy2
          rcases ih bs with h | h
          · exact Or.inl (by simp [charListLeB, lt_irrefl, h])
          · exact Or.inr (by simp [charListLeB, lt_irrefl, h])

theorem charListLeB_trans : ∀ (a b c : List Char),
    charListLeB a b = true → charListLeB b c = true → charListLeB a c = true := by
  intro a
  induction a with
  | nil => intro b c _ _; rfl
  | cons x as ih =>
    intro b c hab hbc
    cases b with
    | nil => simp [charListLeB] at hab
    | cons y bs =>
      cases c with
      | nil => simp [charListLeB] at hbc
      | cons z cs =>
        by_cases hxy : x < y
        · by_cases hyz : y < z
          · simp [charListLeB, lt_trans hxy hyz]
          · by_cases hzy : z < y
            · simp [charListLeB, hyz, hzy] at hbc
            · have h2 : y = z := le_antisymm (not_lt.mp hzy) (not_lt.mp hyz)
              subst h2
              simp [charListLeB, hxy]
        · by_cases hyx : y < x
          · simp [charListLeB, hxy, hyx] at hab
          · have h2 : x = y := le_antisymm (not_lt.mp hyx) (not_lt.mp hxy)
            subst h2
            simp only [charListLeB, lt_irrefl, if_false] at hab
            by_cases hxz : x < z
            · simp [charListLeB, hxz]
            · by_cases hzx : z < x
              · simp [charListLeB, hxz, hzx] at hbc
              · have h3 : x = z := le_antisymm (not_lt.mp hzx) (not_lt.mp hxz)
                subst h3
                simp only [charListLeB, lt_irrefl, if_false] at hbc ⊢
                exact ih bs cs hab hbc

theorem charListLeB_antisymm : ∀ (a b : List Char),
    charListLeB a b = true → charListLeB b a = true → a = b := by
  intro a
  induction a with
  | nil =>
    intro b _ hba
    cases b with
    | nil => rfl
    | cons y bs => simp [charListLeB] at hba
  | cons x as ih =>
    intro b hab hba
    cases b with
    | nil => simp [charListLeB] at hab
    | cons y bs =>
      by_cases hxy : x < y
      · simp [charListLeB, lt_asymm hxy, hxy] at hba
      · by_cases hyx : y < x
        · simp [charListLeB, hxy, hyx] at hab
        · have hxy2 : x = y := le_antisymm (not_lt.mp hyx) (not_lt.mp hxy)
          subst hxy2
          simp only [charListLeB, lt_irrefl, if_false] at hab hba
          rw [ih bs hab hba]

/-- Sorting by label name is permutation-invariant on labelsets whose names
are pairwise distinct (the sorted list is unique). -/
theorem insertionSortKeyNodupEq {l l' : List (String × String)}
    (hperm : l.Perm l') (hnd : (l.map Prod.fst).Nodup) :
    l.insertionSort (fun a b => labelLeB a b = true)
      = l'.insertionSort (fun a b => labelLeB a b = true) := by
  haveI htot : IsTotal (String × String) (fun a b => labelLeB a b = true) :=
    ⟨fun a b => charListLeB_total a.1.data b.1.data⟩
  haveI htr : IsTrans (String × String) (fun a b => labelLeB a b = true) :=
    ⟨fun a b c => charListLeB_trans a.1.data b.1.data c.1.data⟩
  haveI hanti : IsAntisymm (String × String)
      (fun a b => a.1 ≠ b.1 ∧ labelLeB a b = true) := by
    constructor
    intro a b hab hba
    exact absurd (String.toList_inj.mp (charListLeB_antisymm _ _ hab.2 hba.2)) hab.1
  have hsorted : ∀ (m : List (String × String)), (m.map Prod.fst).Nodup →
      List.Sorted (fun a b : String × String => a.1 ≠ b.1 ∧ labelLeB a b = true)
        (m.insertionSort (fun a b => labelLeB a b = true)) := by
    intro m hm
    have h1 : List.Sorted (fun a b : String × String => labelLeB a b = true)
        (m.insertionSort (fun a b => labelLeB a b = true)) :=
      List.sorted_insertionSort _ m
    have h2 : ((m.insertionSort (fun a b => labelLeB a b = true)).map Prod.fst).Nodup :=
      (((List.perm_insertionSort (fun a b => labelLeB a b = true) m).map
        Prod.fst).nodup_iff).mpr hm
    have h3 : List.Pairwise (fun a b : String × String => a.1 ≠ b.1)
        (m.insertionSort (fun a b => labelLeB a b = true)) :=
      List.pairwise_map.mp h2
    exact (h3.and h1).imp (fun h => ⟨h.1, h.2⟩)
  have hnd' : (l'.map Prod.fst).Nodup := ((hperm.map Prod.fst).nodup_iff).mp hnd
  exact List.eq_of_perm_of_sorted
    ((List.perm_insertionSort _ l).trans (hperm.trans
      (List.perm_insertionSort _ l').symm))
    (hsorted l hnd) (hsorted l' hnd')

/-- The duplicate scan never fires on duplicate-free label names. -/
theorem findDupName_eq_none :
    ∀ {l acc : List (String × String)}, ((acc ++ l).map Prod.fst).Nodup →
      findDupName acc l = none := by
  intro l
  induction l with
  | nil => intro acc _; rfl
  | cons p rest ih =>
    intro acc hnd
    obtain ⟨n, v⟩ := p
    have hnotin : n ∉ acc.map Prod.fst := by
      simp only [List.map_append, List.map_cons] at hnd
      intro hmem
      rcases List.nodup_append.mp hnd with ⟨-, -, hdisj⟩
      exact hdisj hmem (List.mem_cons_self _ _)
    have hany : acc.any (fun q => q.1 = n) = false := by
      by_contra hno
      rw [Bool.not_eq_false, List.any_eq_true] at hno
      obtain ⟨q, hq, hq2⟩ := hno
      exact hnotin (List.mem_map.mpr ⟨q, hq, by simpa using hq2⟩)
    unfold findDupName
    rw [hany]
    simp only [Bool.false_eq_true, if_false]
    apply ih
    rw [← List.append_cons]
    exact hnd

/-- `parse_labels` is permutation-invariant on duplicate-free label names. -/
theorem parse_labels_perm {l l' : List (String × String)} (hperm : l'.Perm l)
    (hnd : (l.map Prod.fst).Nodup) : parse_labels l' = parse_labels l := by
  have hnd' : (l'.map Prod.fst).Nodup := ((hperm.map Prod.fst).nodup_iff).mpr hnd
  unfold parse_labels
  rw [findDupName_eq_none (l := l') (by simpa using hnd'),
    findDupName_eq_none (l := l) (by simpa using hnd)]
  rw [insertionSortKeyNodupEq hperm hnd']


/-- `parseSample` depends on the raw labels only through `parse_labels`. -/
theorem parseSample_labels_congr {s : RawSample} {l' : List (String × String)}
    (hl : parse_labels l' = parse_labels s.labels) (fm : MetricFamilyMarshal) :
    parseSample fm { s with labels := l' } = parseSample fm s := by
  unfold parseSample
  simp only [hl]

/-- Replacing one sample line by one processed identically leaves the whole
block processing unchanged. -/
theorem processLines_one_sample_congr {s s' : RawSample}
    (hs : ∀ fm, parseSample fm s' = parseSample fm s) :
    ∀ (fpre fpost : List Line) (fm : MetricFamilyMarshal),
      processLines fm (fpre ++ .sample s' :: fpost)
        = processLines fm (fpre ++ .sample s :: fpost) := by
  intro fpre
  induction fpre with
  | nil =>
    intro fpost fm
    simp only [List.nil_append]
    unfold processLines processLine
    simp only [hs fm]
  | cons l rest ih =>
    intro fpost fm
    simp only [List.cons_append]
    unfold processLines
    rcases hpl : processLine fm l with e | fmx <;> simp only [hpl]
    exact ih fpost fmx

/-- The same, at the family level. -/
theorem parse_metric_family_one_sample_congr {s s' : RawSample}
    (hs : ∀ fm, parseSample fm s' = parseSample fm s) (fpre fpost : List Line) :
    parse_metric_family (fpre ++ .sample s' :: fpost)
      = parse_metric_family (fpre ++ .sample s :: fpost) := by
  unfold parse_metric_family
  rw [processLines_one_sample_congr hs fpre fpost]

/-- Replacing one block by one that parses identically leaves the family loop
unchanged. -/
theorem processFamilies_congr {b b' : List Line}
    (hb : parse_metric_family b' = parse_metric_family b) :
    ∀ (pre : List (List Line)) (post : List (List Line)) (acc : Exposition),
      processFamilies acc (pre ++ b' :: post) = processFamilies acc (pre ++ b :: post) := by
  intro pre
  induction pre with
  | nil =>
    intro post acc
    simp only [List.nil_append]
    unfold processFamilies
    simp only [hb]
  | cons p rest ih =>
    intro post acc
    simp only [List.cons_append]
    unfold processFamilies
    rcases hp : parse_metric_family p with e | fam <;> simp only [hp]
    split
    · rfl
    · exact ih post _

/-- Claim C9 counterexample: with duplicate label names, permuting the labels
inside the braces changes which duplicate is reported, so the two parse
results are different errors — the claim's unconditional equality fails.  The
two inputs differ only in the order of the labels of the single sample. -/
theorem claim_C9_counterexample :
    parse_openmetrics_events
        [[.sample ⟨"m", [("a", "1"), ("a", "2"), ("b", "1"), ("b", "2")], .int 1, none, none⟩]]
      = .error (.invalidMetric "Found label `a` twice in the same labelset") ∧
    parse_openmetrics_events
        [[.sample ⟨"m", [("b", "1"), ("b", "2"), ("a", "1"), ("a", "2")], .int 1, none, none⟩]]
      = .error (.invalidMetric "Found label `b` twice in the same labelset") ∧
    ([("b", "1"), ("b", "2"), ("a", "1"), ("a", "2")] : List (String × String)).isPerm
        [("a", "1"), ("a", "2"), ("b", "1"), ("b", "2")] = true ∧
    parse_openmetrics_events
        [[.sample ⟨"m", [("a", "1"), ("a", "2"), ("b", "1"), ("b", "2")], .int 1, none, none⟩]]
      ≠ parse_openmetrics_events
        [[.sample ⟨"m", [("b", "1"), ("b", "2"), ("a", "1"), ("a", "2")], .int 1, none, none⟩]] := by
  refine ⟨by decide, by decide, by decide, by decide⟩

/-- Claim C9 (amended): permuting the order of the labels inside the braces of
a single sample line whose label names are pairwise distinct does not change
the parse result (labels are sorted by name before further processing; with a
duplicate label name both orders fail, but the reported name may differ). -/
theorem claim_C9_theorem (pre post : List (List Line)) (fpre fpost : List Line)
    (s : RawSample) (l' : List (String × String))
    (hperm : l'.Perm s.labels) (hnd : (s.labels.map Prod.fst).Nodup) :
    parse_openmetrics_events
        (pre ++ (fpre ++ .sample { s with labels := l' } :: fpost) :: post)
      = parse_openmetrics_events (pre ++ (fpre ++ .sample s :: fpost) :: post) := by
  have hl : parse_labels l' = parse_labels s.labels := parse_labels_perm hperm hnd
  unfold parse_openmetrics_events
  exact processFamilies_congr
    (parse_metric_family_one_sample_congr (parseSample_labels_congr hl) fpre fpost)
    pre post []

/-- Claim C9 witness: swapping the two (distinct-name) labels of
`m{a="1",b="2"} 1` leaves the parse result unchanged. -/
theorem claim_C9_witness :
    parse_openmetrics_events
        [[.sample ⟨"m", [("b", "2"), ("a", "1")], .int 1, none, none⟩]]
      = parse_openmetrics_events
        [[.sample ⟨"m", [("a", "1"), ("b", "2")], .int 1, none, none⟩]] := by
  exact claim_C9_theorem [] [] [] []
    ⟨"m", [("a", "1"), ("b", "2")], .int 1, none, none⟩
    [("b", "2"), ("a", "1")]
    (List.Perm.swap ("a", "1") ("b", "2") [])
    (by decide)

end OpenMetrics
